import Mathlib

set_option maxRecDepth 4096

/-!
Verification of the kernel-crash-analyzer backend (`backend.py`).

The backend is a thin FastAPI proxy: it validates the caller's request,
renders a prompt pair, hands it to an external completion service, strips an
optional Markdown code fence from the reply, parses the reply as JSON and
validates it against the pydantic `AnalysisReport` model, classifying every
failure as an HTTP error.

Python strings are embedded as `List Char`; `json.loads` is embedded as an
executable recursive-descent JSON reader; the pydantic model validation is
embedded field by field following pydantic's lax mode (string fields accept
exactly strings, integer fields accept integers and integer-shaped strings
and reject booleans, unknown keys are ignored, defaulted fields fall back to
their declared default).
-/

namespace KernelCrashAnalyzer

/-- Characters removed by Python's `str.strip()` (the ASCII whitespace set). -/
def pyIsSpace (c : Char) : Bool :=
  c = ' ' || c = '\t' || c = '\n' || c = '\r' || c = '\x0b' || c = '\x0c'

/-- Python `str.strip()`: drop leading and trailing whitespace. -/
def pyStrip (s : List Char) : List Char :=
  ((s.dropWhile pyIsSpace).reverse.dropWhile pyIsSpace).reverse

/-- Convenience: the characters of a Lean string literal. -/
def strChars (s : String) : List Char := s.data

/-- Python `sep.join(parts)`. -/
def joinParts (sep : List Char) : List (List Char) → List Char
  | [] => []
  | [p] => p
  | p :: rest => p ++ sep ++ joinParts sep rest

/-- `AnalyzeRequest` (backend.py lines 32-36): the caller-supplied payload. -/
structure AnalyzeRequest where
  log_text : List Char
  kernel_version : List Char := []
  distro : List Char := []
  additional_context : List Char := []

/-- `build_user_prompt` (backend.py lines 99-110): the per-request user
message, a join of the log block, the optional metadata lines (each present
only when its field is non-empty, Python truthiness) and a closing
instruction. -/
def build_user_prompt (req : AnalyzeRequest) : List Char :=
  joinParts (strChars "\n\n")
    ([strChars "<kernel_log>\n" ++ req.log_text ++ strChars "\n</kernel_log>"] ++
     (if req.kernel_version ≠ [] then
        [strChars "Kernel version (user-provided): " ++ req.kernel_version] else []) ++
     (if req.distro ≠ [] then
        [strChars "Distribution: " ++ req.distro] else []) ++
     (if req.additional_context ≠ [] then
        [strChars "Additional context from the engineer: " ++ req.additional_context] else []) ++
     [strChars "\nAnalyze this crash and respond with the JSON report."])

/-- The Markdown fence marker the backend looks for. -/
def fence : List Char := strChars "```"

/-- Python `s.split(sep, 1)`: split at the FIRST occurrence of `sep`,
`none` when `sep` does not occur (modelling the one-element result list). -/
def splitOnceFirst (sep : List Char) : List Char → Option (List Char × List Char)
  | [] => none
  | c :: cs =>
    if sep.isPrefixOf (c :: cs) then some ([], (c :: cs).drop sep.length)
    else
      match splitOnceFirst sep cs with
      | some (pre, post) => some (c :: pre, post)
      | none => none

/-- Python `s.rsplit(sep, 1)`: split at the LAST occurrence of `sep`. -/
def splitOnceLast (sep : List Char) : List Char → Option (List Char × List Char)
  | [] => none
  | c :: cs =>
    match splitOnceLast sep cs with
    | some (pre, post) => some (c :: pre, post)
    | none =>
      if sep.isPrefixOf (c :: cs) then some ([], (c :: cs).drop sep.length) else none

/-- Kinds of pydantic validation failure the backend's schema can produce. -/
inductive ErrKind where
  | missing
  | notString
  | notInt
  | notList
  | notDict
  deriving DecidableEq, Repr

/-- One pydantic validation error: the offending field and why it failed. -/
structure SchemaError where
  field : List Char
  kind : ErrKind
  deriving DecidableEq

/-- The Python exceptions that can escape the try-block of `analyze_crash`
other than `json.JSONDecodeError`: the `IndexError` raised by
`raw.split("\n", 1)[1]` when the reply has no newline, the `TypeError`
raised by `AnalysisReport(**report)` when the parsed JSON is not an object,
a pydantic `ValidationError`, and a provider/transport error from the
completion-service client. -/
inductive PyError where
  | indexError
  | typeError
  | validation (e : SchemaError)
  | provider (msg : List Char)
  deriving DecidableEq

/-- `str(e)` for a pydantic validation error: names the offending field. -/
def schemaErrorMessage (e : SchemaError) : List Char :=
  e.field ++ strChars ": " ++
    (match e.kind with
     | .missing => strChars "Field required"
     | .notString => strChars "Input should be a valid string"
     | .notInt => strChars "Input should be a valid integer"
     | .notList => strChars "Input should be a valid list"
     | .notDict => strChars "Input should be a valid dictionary")

/-- `str(e)` for each exception reaching the generic `except Exception`. -/
def pyErrorMessage : PyError → List Char
  | .indexError => strChars "list index out of range"
  | .typeError => strChars "argument after ** must be a mapping"
  | .validation e => schemaErrorMessage e
  | .provider msg => msg

/-- The fence-stripping step (backend.py lines 131-136): on a stripped raw
reply, drop the first line when the text starts with a fence marker
(raising `IndexError` when there is no newline to split at), drop
everything from the last fence marker on when the text ends with one, and
strip again. -/
def cleanFences (raw : List Char) : Except PyError (List Char) :=
  match (if fence.isPrefixOf raw then
           match splitOnceFirst (strChars "\n") raw with
           | some (_, post) => Except.ok post
           | none => Except.error PyError.indexError
         else Except.ok raw : Except PyError (List Char)) with
  | .error e => .error e
  | .ok r1 =>
    let r2 := if fence.isSuffixOf r1 then
        match splitOnceLast fence r1 with
        | some (pre, _) => pre
        | none => r1
      else r1
    .ok (pyStrip r2)

deriving instance DecidableEq for Except

/-! ## JSON values

`json.loads` distinguishes objects, arrays, strings, integers, floats,
booleans and `None`. The backend's schema uses only objects, arrays,
strings and integers, so the embedding carries those (plus booleans and
null, which the parser must still recognise); replies whose documents use
fractional numbers are outside the embedding. -/

/-- A parsed JSON document. Objects keep their members in textual order,
duplicates included; the dict semantics of `json.loads` (last duplicate
wins) lives in the lookup function `getField`. -/
inductive Json where
  | null
  | bool (b : Bool)
  | int (n : Int)
  | str (s : List Char)
  | arr (elems : List Json)
  | obj (members : List (List Char × Json))

mutual

def Json.beq : Json → Json → Bool
  | .null, .null => true
  | .bool a, .bool b => a == b
  | .int a, .int b => a == b
  | .str a, .str b => a == b
  | .arr a, .arr b => Json.beqElems a b
  | .obj a, .obj b => Json.beqMembers a b
  | _, _ => false

def Json.beqElems : List Json → List Json → Bool
  | [], [] => true
  | x :: xs, y :: ys => Json.beq x y && Json.beqElems xs ys
  | _, _ => false

def Json.beqMembers : List (List Char × Json) → List (List Char × Json) → Bool
  | [], [] => true
  | p :: ps, q :: qs => p.1 == q.1 && (Json.beq p.2 q.2 && Json.beqMembers ps qs)
  | _, _ => false

end

mutual

theorem Json.beq_iff_eq : ∀ a b : Json, Json.beq a b = true ↔ a = b
  | .null, .null => by simp [Json.beq]
  | .bool _, .bool _ => by simp [Json.beq]
  | .int _, .int _ => by simp [Json.beq]
  | .str _, .str _ => by simp [Json.beq]
  | .arr x, .arr y => by simp [Json.beq, Json.beqElems_iff_eq x y]
  | .obj x, .obj y => by simp [Json.beq, Json.beqMembers_iff_eq x y]
  | .null, .bool _ | .null, .int _ | .null, .str _ | .null, .arr _ | .null, .obj _
  | .bool _, .null | .bool _, .int _ | .bool _, .str _ | .bool _, .arr _ | .bool _, .obj _
  | .int _, .null | .int _, .bool _ | .int _, .str _ | .int _, .arr _ | .int _, .obj _
  | .str _, .null | .str _, .bool _ | .str _, .int _ | .str _, .arr _ | .str _, .obj _
  | .arr _, .null | .arr _, .bool _ | .arr _, .int _ | .arr _, .str _ | .arr _, .obj _
  | .obj _, .null | .obj _, .bool _ | .obj _, .int _ | .obj _, .str _ | .obj _, .arr _ => by
    simp [Json.beq]

theorem Json.beqElems_iff_eq : ∀ xs ys : List Json, Json.beqElems xs ys = true ↔ xs = ys
  | [], [] => by simp [Json.beqElems]
  | x :: xs, y :: ys => by
    simp [Json.beqElems, Json.beq_iff_eq x y, Json.beqElems_iff_eq xs ys]
  | [], _ :: _ => by simp [Json.beqElems]
  | _ :: _, [] => by simp [Json.beqElems]

theorem Json.beqMembers_iff_eq :
    ∀ xs ys : List (List Char × Json), Json.beqMembers xs ys = true ↔ xs = ys
  | [], [] => by simp [Json.beqMembers]
  | p :: ps, q :: qs => by
    obtain ⟨k₁, v₁⟩ := p
    obtain ⟨k₂, v₂⟩ := q
    simp [Json.beqMembers, Json.beq_iff_eq v₁ v₂, Json.beqMembers_iff_eq ps qs, and_assoc]
  | [], _ :: _ => by simp [Json.beqMembers]
  | _ :: _, [] => by simp [Json.beqMembers]

end

instance : DecidableEq Json := fun a b => decidable_of_iff _ (Json.beq_iff_eq a b)

/-! ## Decimal and hexadecimal digits -/

/-- The character of the decimal digit `d`. -/
def digitChar (d : Nat) : Char := Char.ofNat (48 + d)

/-- The decimal digits of `n`, most significant first, in front of `acc`.
Structural recursion on `fuel` keeps the definition kernel-computable;
`natDigits` supplies fuel that cannot run out. -/
def natDigitsGo : Nat → Nat → List Char → List Char
  | 0, n, acc => digitChar n :: acc
  | fuel + 1, n, acc =>
    if n < 10 then digitChar n :: acc
    else natDigitsGo fuel (n / 10) (digitChar (n % 10) :: acc)

/-- The decimal digits of `n`, most significant first. -/
def natDigits (n : Nat) : List Char := natDigitsGo n n []

/-- How many decimal digits `natDigits n` spells. -/
def digitCount (n : Nat) : Nat :=
  if n < 10 then 1 else digitCount (n / 10) + 1
termination_by n
decreasing_by exact Nat.div_lt_self (by omega) (by omega)

/-- The character of the hexadecimal digit `d`, lowercase. -/
def hexDigitChar (d : Nat) : Char :=
  if 9 < d then Char.ofNat (87 + d) else digitChar d

/-- Four hexadecimal digits spelling `n % 65536`, most significant first. -/
def hex4 (n : Nat) : List Char :=
  [hexDigitChar (n / 4096 % 16), hexDigitChar (n / 256 % 16),
   hexDigitChar (n / 16 % 16), hexDigitChar (n % 16)]

/-- The value of one hexadecimal digit character, upper or lower case. -/
def hexVal (c : Char) : Option Nat :=
  if '0' ≤ c ∧ c ≤ '9' then some (c.toNat - 48)
  else if 'a' ≤ c ∧ c ≤ 'f' then some (c.toNat - 87)
  else if 'A' ≤ c ∧ c ≤ 'F' then some (c.toNat - 55)
  else none

/-! ## Rendering a JSON document as text

The serialization a well-formed reply carries: standard JSON notation,
escaping the quotation mark, the backslash and the control characters
inside string literals. -/

/-- The digits of an integer, with a leading minus sign when negative. -/
def renderInt (n : Int) : List Char :=
  if n < 0 then '-' :: natDigits n.natAbs else natDigits n.toNat

/-- One character of a JSON string literal. -/
def escapeChar (c : Char) : List Char :=
  if c = '"' then ['\\', '"']
  else if c = '\\' then ['\\', '\\']
  else if c.toNat < 32 then '\\' :: 'u' :: hex4 c.toNat
  else [c]

/-- The body of a JSON string literal. -/
def escapeList : List Char → List Char
  | [] => []
  | c :: rest => escapeChar c ++ escapeList rest

/-- A JSON string literal, quotation marks included. -/
def renderString (s : List Char) : List Char := '"' :: escapeList s ++ ['"']

mutual

/-- A JSON document as text (no incidental whitespace). -/
def render : Json → List Char
  | .str s => renderString s
  | .int n => renderInt n
  | .arr l => '[' :: renderElems l ++ [']']
  | .obj ms => '{' :: renderMembers ms ++ ['}']
  | .bool b => if b then ['t', 'r', 'u', 'e'] else ['f', 'a', 'l', 's', 'e']
  | .null => ['n', 'u', 'l', 'l']

def renderElems : List Json → List Char
  | [] => []
  | [x] => render x
  | x :: y :: rest => render x ++ ',' :: renderElems (y :: rest)

def renderMembers : List (List Char × Json) → List Char
  | [] => []
  | [(k, v)] => renderString k ++ ':' :: render v
  | (k, v) :: m :: rest => renderString k ++ ':' :: render v ++ ',' :: renderMembers (m :: rest)

end

mutual

/-- Fuel sufficient for the reader to reconstruct a document. -/
def cost : Json → Nat
  | .null => 1
  | .bool _ => 1
  | .int _ => 1
  | .str _ => 1
  | .arr l => 1 + costElems l
  | .obj ms => 1 + costMembers ms

def costElems : List Json → Nat
  | [] => 0
  | v :: rest => 1 + max (cost v) (costElems rest)

def costMembers : List (List Char × Json) → Nat
  | [] => 0
  | (_, v) :: rest => 1 + max (cost v) (costMembers rest)

end

/-! ## Reading text back into a JSON document (the model of `json.loads`) -/

/-- The whitespace `json.loads` skips between tokens. -/
def jsonWs (c : Char) : Bool := c = ' ' || c = '\t' || c = '\n' || c = '\r'

/-- Skip inter-token whitespace. -/
def skipWs (s : List Char) : List Char := s.dropWhile jsonWs

def msgExpectingValue : List Char := strChars "Expecting value"

def msgUnterminated : List Char := strChars "Unterminated string starting at"

def msgBadUEscape : List Char := strChars "Invalid \\uXXXX escape"

def msgBadEscape : List Char := strChars "Invalid \\escape"

def msgControlChar : List Char := strChars "Invalid control character at"

def msgCommaDelim : List Char := strChars "Expecting comma delimiter"

def msgColonDelim : List Char := strChars "Expecting colon delimiter"

def msgPropertyName : List Char := strChars "Expecting property name enclosed in double quotes"

def msgExtraData : List Char := strChars "Extra data"

def msgRecursion : List Char := strChars "maximum recursion depth exceeded"

/-- Prepend a character to the string being accumulated by the literal
reader. -/
def consStr (c : Char) :
    Except (List Char) (List Char × List Char) → Except (List Char) (List Char × List Char)
  | .ok (s, rest) => .ok (c :: s, rest)
  | .error e => .error e

/-- The single-character string escapes of JSON. -/
def escDecode (e : Char) : Option Char :=
  if e = '"' then some '"'
  else if e = '\\' then some '\\'
  else if e = '/' then some '/'
  else if e = 'n' then some '\n'
  else if e = 't' then some '\t'
  else if e = 'r' then some '\r'
  else if e = 'b' then some '\x08'
  else if e = 'f' then some '\x0c'
  else none

/-- Read the body of a string literal after its opening quotation mark,
returning the decoded characters and the text after the closing mark. -/
def parseStringBody : List Char → Except (List Char) (List Char × List Char)
  | [] => .error msgUnterminated
  | c :: rest =>
    if c = '"' then .ok ([], rest)
    else if c = '\\' then
      match rest with
      | [] => .error msgUnterminated
      | e :: rest' =>
        if e = 'u' then
          match rest' with
          | h₁ :: h₂ :: h₃ :: h₄ :: rest₂ =>
            match hexVal h₁, hexVal h₂, hexVal h₃, hexVal h₄ with
            | some a, some b, some cc, some d =>
              consStr (Char.ofNat (((a * 16 + b) * 16 + cc) * 16 + d)) (parseStringBody rest₂)
            | _, _, _, _ => .error msgBadUEscape
          | _ => .error msgBadUEscape
        else
          match escDecode e with
          | some ch => consStr ch (parseStringBody rest')
          | none => .error msgBadEscape
    else if c.toNat < 32 then .error msgControlChar
    else consStr c (parseStringBody rest)

/-- Read a maximal run of decimal digits, extending the value `acc`. -/
def parseDigits : List Char → Nat → Nat × List Char
  | [], acc => (acc, [])
  | c :: rest, acc =>
    if c.isDigit then parseDigits rest (acc * 10 + (c.toNat - 48)) else (acc, c :: rest)

mutual

/-- Read one JSON value, whitespace-prefixed, returning the unread text.
`fuel` bounds the reader's recursion depth: `parseJson` hands it more fuel
than any document that fits in its input can need. -/
def parseValue : Nat → List Char → Except (List Char) (Json × List Char)
  | 0, _ => .error msgRecursion
  | fuel + 1, s =>
    match skipWs s with
    | [] => .error msgExpectingValue
    | c :: rest =>
      if c.isDigit then
        let p := parseDigits (c :: rest) 0
        .ok (.int (p.1 : Int), p.2)
      else if c = '-' then
        match rest with
        | d :: _ =>
          if d.isDigit then
            let p := parseDigits rest 0
            .ok (.int (-(p.1 : Int)), p.2)
          else .error msgExpectingValue
        | [] => .error msgExpectingValue
      else if c = '"' then
        match parseStringBody rest with
        | .ok (str, r) => .ok (.str str, r)
        | .error e => .error e
      else if c = '[' then
        match skipWs rest with
        | ']' :: r₂ => .ok (.arr [], r₂)
        | _ =>
          match parseElems fuel rest with
          | .ok (l, r) => .ok (.arr l, r)
          | .error e => .error e
      else if c = '{' then
        match skipWs rest with
        | '}' :: r₂ => .ok (.obj [], r₂)
        | _ =>
          match parseMembers fuel rest with
          | .ok (ms, r) => .ok (.obj ms, r)
          | .error e => .error e
      else if c = 'n' then
        if ['u', 'l', 'l'].isPrefixOf rest then .ok (.null, rest.drop 3)
        else .error msgExpectingValue
      else if c = 't' then
        if ['r', 'u', 'e'].isPrefixOf rest then .ok (.bool true, rest.drop 3)
        else .error msgExpectingValue
      else if c = 'f' then
        if ['a', 'l', 's', 'e'].isPrefixOf rest then .ok (.bool false, rest.drop 4)
        else .error msgExpectingValue
      else .error msgExpectingValue

/-- Read the elements of a non-empty array after its opening bracket. -/
def parseElems : Nat → List Char → Except (List Char) (List Json × List Char)
  | 0, _ => .error msgRecursion
  | fuel + 1, s =>
    match parseValue fuel s with
    | .error e => .error e
    | .ok (v, r₁) =>
      match skipWs r₁ with
      | ',' :: r₂ =>
        match parseElems fuel r₂ with
        | .ok (l, r) => .ok (v :: l, r)
        | .error e => .error e
      | ']' :: r₂ => .ok ([v], r₂)
      | _ => .error msgCommaDelim

/-- Read the members of a non-empty object after its opening brace. -/
def parseMembers : Nat → List Char → Except (List Char) (List (List Char × Json) × List Char)
  | 0, _ => .error msgRecursion
  | fuel + 1, s =>
    match skipWs s with
    | '"' :: rest =>
      match parseStringBody rest with
      | .error e => .error e
      | .ok (k, r₁) =>
        match skipWs r₁ with
        | ':' :: r₂ =>
          match parseValue fuel r₂ with
          | .error e => .error e
          | .ok (v, r₃) =>
            match skipWs r₃ with
            | ',' :: r₄ =>
              match parseMembers fuel r₄ with
              | .ok (ms, r) => .ok ((k, v) :: ms, r)
              | .error e => .error e
            | '}' :: r₄ => .ok ([(k, v)], r₄)
            | _ => .error msgCommaDelim
        | _ => .error msgColonDelim
    | _ => .error msgPropertyName

end

/-- The model of `json.loads`: read one document and insist nothing but
whitespace follows it. -/
def parseJson (s : List Char) : Except (List Char) Json :=
  match parseValue (s.length + 1) s with
  | .error e => .error e
  | .ok (j, rest) => if skipWs rest = [] then .ok j else .error msgExtraData

example : parseJson (strChars "not json at all") = .error msgExpectingValue := by decide

example :
    parseJson (strChars " \x7b\"a\": [1, -25, \"x\\n\"] \x7d ") =
      .ok (.obj [(['a'], .arr [.int 1, .int (-25), .str ['x', '\n']])]) := by decide

example : render (.obj [(['a'], .arr [.int 1, .int (-25), .str ['x', '\n']])]) =
    strChars "\x7b\"a\":[1,-25,\"x\\u000a\"]\x7d" := by decide

example : parseJson (strChars "\x7b\"a\": 1\x7d extra") = .error msgExtraData := by decide

example : pyStrip (strChars "  ab c  ") = strChars "ab c" := by decide

/-! ## The report schema (backend.py lines 38-57) and its pydantic
validation

`AnalysisReport(**report)` validates the parsed JSON dict in pydantic's
default lax mode: a `str` field accepts exactly strings; an `int` field
accepts integers and integer-shaped strings but not booleans; a `list`
field accepts exactly lists; a nested model accepts exactly a dict;
declared defaults fill absent keys; unknown keys are ignored. -/

/-- `RelatedIssue` (backend.py lines 38-41). -/
structure RelatedIssue where
  id : List Char
  title : List Char
  url : List Char := ['#']
  deriving DecidableEq

/-- `TraceFrame` (backend.py lines 43-45). -/
structure TraceFrame where
  func : List Char
  note : List Char
  deriving DecidableEq

/-- `AnalysisReport` (backend.py lines 47-57). -/
structure AnalysisReport where
  crash_type : List Char
  severity : List Char
  confidence : Int
  root_cause : List Char
  detailed_analysis : List Char
  affected_subsystem : List Char
  probable_trigger : List Char
  suggested_fixes : List (List Char)
  related_issues : List RelatedIssue
  annotated_trace : List TraceFrame
  deriving DecidableEq

/-- Dict lookup as built by `json.loads`: the LAST member with the wanted
name wins, mirroring dict insertion overwriting earlier duplicates. -/
def getField (ms : List (List Char × Json)) (name : List Char) : Option Json :=
  match ms with
  | [] => none
  | (k, v) :: rest =>
    match getField rest name with
    | some r => some r
    | none => if k = name then some v else none

/-- The digits' value, `none` on a non-digit. -/
def digitsVal : List Char → Nat → Option Nat
  | [], acc => some acc
  | c :: rest, acc =>
    if c.isDigit then digitsVal rest (acc * 10 + (c.toNat - 48)) else none

/-- Python `int(s)` as pydantic's lax mode applies it to a string:
surrounding whitespace allowed, then an optional sign and at least one
digit. -/
def strToIntLax (s : List Char) : Option Int :=
  match pyStrip s with
  | [] => none
  | '-' :: ds =>
    match ds with
    | [] => none
    | _ => (digitsVal ds 0).map (fun n => -(n : Int))
  | '+' :: ds =>
    match ds with
    | [] => none
    | _ => (digitsVal ds 0).map (fun n => (n : Int))
  | ds => (digitsVal ds 0).map (fun n => (n : Int))

/-- Pydantic lax coercion to `int`: integers pass, integer-shaped strings
are converted, booleans and everything else are rejected. -/
def pyIntLax : Json → Option Int
  | .int n => some n
  | .str s => strToIntLax s
  | _ => none

/-- A required `str` field. -/
def reqStr (ms : List (List Char × Json)) (name : List Char) :
    Except SchemaError (List Char) :=
  match getField ms name with
  | none => .error ⟨name, .missing⟩
  | some (.str s) => .ok s
  | some _ => .error ⟨name, .notString⟩

/-- A `str` field with a declared default. -/
def defStr (ms : List (List Char × Json)) (name dflt : List Char) :
    Except SchemaError (List Char) :=
  match getField ms name with
  | none => .ok dflt
  | some (.str s) => .ok s
  | some _ => .error ⟨name, .notString⟩

/-- A required `int` field, in pydantic lax mode. -/
def reqInt (ms : List (List Char × Json)) (name : List Char) : Except SchemaError Int :=
  match getField ms name with
  | none => .error ⟨name, .missing⟩
  | some v =>
    match pyIntLax v with
    | some n => .ok n
    | none => .error ⟨name, .notInt⟩

/-- Elements of a `list[str]` field. -/
def strElems (name : List Char) : List Json → Except SchemaError (List (List Char))
  | [] => .ok []
  | .str s :: rest =>
    match strElems name rest with
    | .ok l => .ok (s :: l)
    | .error e => .error e
  | _ :: _ => .error ⟨name, .notString⟩

/-- A required `list[str]` field. -/
def reqStrList (ms : List (List Char × Json)) (name : List Char) :
    Except SchemaError (List (List Char)) :=
  match getField ms name with
  | none => .error ⟨name, .missing⟩
  | some (.arr l) => strElems name l
  | some _ => .error ⟨name, .notList⟩

/-- One element of the `related_issues` list: a dict with required `id`
and `title` and a defaulted `url`. -/
def issueOfJson (name : List Char) : Json → Except SchemaError RelatedIssue
  | .obj m =>
    match reqStr m (strChars "id") with
    | .error e => .error e
    | .ok i =>
      match reqStr m (strChars "title") with
      | .error e => .error e
      | .ok t =>
        match defStr m (strChars "url") ['#'] with
        | .error e => .error e
        | .ok u => .ok ⟨i, t, u⟩
  | _ => .error ⟨name, .notDict⟩

/-- Elements of the `list[RelatedIssue]` field. -/
def issueElems (name : List Char) : List Json → Except SchemaError (List RelatedIssue)
  | [] => .ok []
  | v :: rest =>
    match issueOfJson name v with
    | .error e => .error e
    | .ok issue =>
      match issueElems name rest with
      | .ok l => .ok (issue :: l)
      | .error e => .error e

/-- One element of the `annotated_trace` list: a dict with required
`func` and `note`. -/
def frameOfJson (name : List Char) : Json → Except SchemaError TraceFrame
  | .obj m =>
    match reqStr m (strChars "func") with
    | .error e => .error e
    | .ok f =>
      match reqStr m (strChars "note") with
      | .error e => .error e
      | .ok n => .ok ⟨f, n⟩
  | _ => .error ⟨name, .notDict⟩

/-- Elements of the `list[TraceFrame]` field. -/
def frameElems (name : List Char) : List Json → Except SchemaError (List TraceFrame)
  | [] => .ok []
  | v :: rest =>
    match frameOfJson name v with
    | .error e => .error e
    | .ok frame =>
      match frameElems name rest with
      | .ok l => .ok (frame :: l)
      | .error e => .error e

/-- A required `list[RelatedIssue]` field. -/
def reqIssues (ms : List (List Char × Json)) (name : List Char) :
    Except SchemaError (List RelatedIssue) :=
  match getField ms name with
  | none => .error ⟨name, .missing⟩
  | some (.arr l) => issueElems name l
  | some _ => .error ⟨name, .notList⟩

/-- A required `list[TraceFrame]` field. -/
def reqFrames (ms : List (List Char × Json)) (name : List Char) :
    Except SchemaError (List TraceFrame) :=
  match getField ms name with
  | none => .error ⟨name, .missing⟩
  | some (.arr l) => frameElems name l
  | some _ => .error ⟨name, .notList⟩

/-- Field-by-field validation of the keyword dict against
`AnalysisReport`, in declaration order. -/
def buildReport (ms : List (List Char × Json)) : Except SchemaError AnalysisReport :=
  match reqStr ms (strChars "crash_type") with
  | .error e => .error e
  | .ok ct =>
    match reqStr ms (strChars "severity") with
    | .error e => .error e
    | .ok sv =>
      match reqInt ms (strChars "confidence") with
      | .error e => .error e
      | .ok conf =>
        match reqStr ms (strChars "root_cause") with
        | .error e => .error e
        | .ok rc =>
          match reqStr ms (strChars "detailed_analysis") with
          | .error e => .error e
          | .ok da =>
            match reqStr ms (strChars "affected_subsystem") with
            | .error e => .error e
            | .ok asub =>
              match reqStr ms (strChars "probable_trigger") with
              | .error e => .error e
              | .ok pt =>
                match reqStrList ms (strChars "suggested_fixes") with
                | .error e => .error e
                | .ok sf =>
                  match reqIssues ms (strChars "related_issues") with
                  | .error e => .error e
                  | .ok ri =>
                    match reqFrames ms (strChars "annotated_trace") with
                    | .error e => .error e
                    | .ok tr => .ok ⟨ct, sv, conf, rc, da, asub, pt, sf, ri, tr⟩

/-- `AnalysisReport(**report)`: a `TypeError` when the parsed document is
not an object, a pydantic `ValidationError` when a field fails. -/
def validateReport : Json → Except PyError AnalysisReport
  | .obj ms =>
    match buildReport ms with
    | .ok r => .ok r
    | .error e => .error (.validation e)
  | _ => .error .typeError

/-! ## The endpoint (backend.py lines 114-144) -/

/-- `SYSTEM_PROMPT` (backend.py lines 61-97). -/
def SYSTEM_PROMPT : List Char := strChars
  "You are a senior Linux kernel engineer with 20+ years of experience debugging kernel crashes, panics, oops, OOM kills, and hung tasks.\n\nGiven a kernel crash log, produce a thorough structured analysis in JSON format. Be specific — reference actual function names, register values, and offsets from the log. Do not be generic.\n\nRespond with ONLY valid JSON (no markdown, no backticks, no preamble) matching this exact schema:\n\n\x7b\n  \"crash_type\": \"one of: Kernel Panic, Oops, OOM Kill, Hung Task, GPU Fault, Filesystem Corruption, Segfault, Soft Lockup, Hard Lockup, Other\",\n  \"severity\": \"one of: critical, high, medium, low\",\n  \"confidence\": <integer 0-100>,\n  \"root_cause\": \"<1-3 sentence plain English explanation of what went wrong>\",\n  \"detailed_analysis\": \"<multi-paragraph technical walkthrough of the crash, referencing register state, call trace frames, and relevant kernel internals>\",\n  \"affected_subsystem\": \"<e.g., ext4 filesystem, memory management, networking, GPU driver>\",\n  \"probable_trigger\": \"<what likely caused the crash — be specific>\",\n  \"suggested_fixes\": [\n    \"<actionable step 1 with specific commands if applicable>\",\n    \"<actionable step 2>\",\n    \"<actionable step 3>\",\n    \"<actionable step 4>\"\n  ],\n  \"related_issues\": [\n    \x7b\"id\": \"<CVE or bug ID if you can identify one>\", \"title\": \"<description>\", \"url\": \"#\"\x7d,\n    \x7b\"id\": \"<another related issue>\", \"title\": \"<description>\", \"url\": \"#\"\x7d\n  ],\n  \"annotated_trace\": [\n    \x7b\"func\": \"<function+offset from call trace>\", \"note\": \"<what this frame is doing>\"\x7d,\n    \x7b\"func\": \"<next frame>\", \"note\": \"<annotation>\"\x7d\n  ]\n\x7d\n\nRules:\n- annotated_trace should cover EVERY frame in the call trace from the log\n- suggested_fixes should be concrete and actionable, not generic advice\n- If you recognize a known CVE or kernel bug, reference it in related_issues\n- If the log is incomplete or ambiguous, lower your confidence score and note uncertainties in detailed_analysis\n- severity should be: critical (system unusable/data loss), high (crash but recoverable), medium (warning/degraded), low (informational)\n"

/-- The HTTP failure surfaced to the caller (`HTTPException`). -/
structure HttpError where
  status : Nat
  detail : List Char
  deriving DecidableEq

/-- `analyze_crash` (backend.py lines 114-144). The external completion
service is an injected collaborator `llm` taking the system prompt and the
user message and returning the reply's text, or a provider/transport
error (whose exception the endpoint catches generically). -/
def analyze_crash (llm : List Char → List Char → Except (List Char) (List Char))
    (req : AnalyzeRequest) : Except HttpError AnalysisReport :=
  if pyStrip req.log_text = [] then
    .error ⟨400, strChars "log_text cannot be empty"⟩
  else
    match llm SYSTEM_PROMPT (build_user_prompt req) with
    | .error msg => .error ⟨500, strChars "Analysis failed: " ++ msg⟩
    | .ok reply =>
      match cleanFences (pyStrip reply) with
      | .error e => .error ⟨500, strChars "Analysis failed: " ++ pyErrorMessage e⟩
      | .ok cleaned =>
        match parseJson cleaned with
        | .error e => .error ⟨500, strChars "LLM returned invalid JSON: " ++ e⟩
        | .ok doc =>
          match validateReport doc with
          | .error e => .error ⟨500, strChars "Analysis failed: " ++ pyErrorMessage e⟩
          | .ok report => .ok report

example : cleanFences (strChars "```json\nhi\n```") = .ok (strChars "hi") := by decide

example : cleanFences (strChars "```") = .error .indexError := by decide

example :
    build_user_prompt { log_text := strChars "oops" } =
      strChars "<kernel_log>\noops\n</kernel_log>\n\n\nAnalyze this crash and respond with the JSON report." := by
  decide

/-! ## Canonical documents

Builders producing the JSON document a well-formed reply carries, used to
state the claims about validation and the bare/fenced round trip. -/

/-- The document form of one related issue. -/
def issueToJson (i : RelatedIssue) : Json :=
  .obj [(strChars "id", .str i.id), (strChars "title", .str i.title),
        (strChars "url", .str i.url)]

/-- The document form of one annotated trace frame. -/
def frameToJson (f : TraceFrame) : Json :=
  .obj [(strChars "func", .str f.func), (strChars "note", .str f.note)]

/-- The member list of a reply document carrying the full `AnalysisReport`
shape, with the `confidence` member's value left free so that claims can
probe it. -/
def docMembers (ct sv : List Char) (conf : Json) (rc da asub pt : List Char)
    (sf : List (List Char)) (ri : List RelatedIssue) (tr : List TraceFrame) :
    List (List Char × Json) :=
  [(strChars "crash_type", .str ct),
   (strChars "severity", .str sv),
   (strChars "confidence", conf),
   (strChars "root_cause", .str rc),
   (strChars "detailed_analysis", .str da),
   (strChars "affected_subsystem", .str asub),
   (strChars "probable_trigger", .str pt),
   (strChars "suggested_fixes", .arr (sf.map .str)),
   (strChars "related_issues", .arr (ri.map issueToJson)),
   (strChars "annotated_trace", .arr (tr.map frameToJson))]

/-- A reply document carrying the full `AnalysisReport` shape. -/
def mkReportDoc (ct sv : List Char) (conf : Json) (rc da asub pt : List Char)
    (sf : List (List Char)) (ri : List RelatedIssue) (tr : List TraceFrame) : Json :=
  .obj (docMembers ct sv conf rc da asub pt sf ri tr)

/-- The member list of a reply document with every required member except
`confidence`. -/
def docMembersNoConf (ct sv rc da asub pt : List Char) (sf : List (List Char))
    (ri : List RelatedIssue) (tr : List TraceFrame) : List (List Char × Json) :=
  [(strChars "crash_type", .str ct),
   (strChars "severity", .str sv),
   (strChars "root_cause", .str rc),
   (strChars "detailed_analysis", .str da),
   (strChars "affected_subsystem", .str asub),
   (strChars "probable_trigger", .str pt),
   (strChars "suggested_fixes", .arr (sf.map .str)),
   (strChars "related_issues", .arr (ri.map issueToJson)),
   (strChars "annotated_trace", .arr (tr.map frameToJson))]

/-- The canonical document of a report: every field serialized with its
declared type. -/
def docOfReport (r : AnalysisReport) : Json :=
  mkReportDoc r.crash_type r.severity (.int r.confidence) r.root_cause
    r.detailed_analysis r.affected_subsystem r.probable_trigger
    r.suggested_fixes r.related_issues r.annotated_trace

/-- The ten required member names of the report schema. -/
def requiredFields : List (List Char) :=
  [strChars "crash_type", strChars "severity", strChars "confidence",
   strChars "root_cause", strChars "detailed_analysis",
   strChars "affected_subsystem", strChars "probable_trigger",
   strChars "suggested_fixes", strChars "related_issues",
   strChars "annotated_trace"]

/-- Text that cannot extend a run of digits (empty, or starting with a
non-digit): what may follow a rendered integer without changing how the
reader reads it. -/
def headDigitFree : List Char → Prop
  | [] => True
  | c :: _ => c.isDigit = false

/-- A reply wrapped in one fence pair with a language tag, the shape of
Scenario B. -/
def fenceWrap (s : List Char) : List Char :=
  strChars "```json\n" ++ s ++ strChars "\n```"

example :
    analyze_crash
      (fun _ _ => .ok (strChars "```json\n\x7b\"crash_type\":\"Oops\",\"severity\":\"high\",\"confidence\":87,\"root_cause\":\"r\",\"detailed_analysis\":\"d\",\"affected_subsystem\":\"a\",\"probable_trigger\":\"p\",\"suggested_fixes\":[\"f1\"],\"related_issues\":[\x7b\"id\":\"i\",\"title\":\"t\"\x7d],\"annotated_trace\":[\x7b\"func\":\"F\",\"note\":\"N\"\x7d]\x7d\n```"))
      { log_text := strChars "kernel BUG at mm/slab.c:123" } =
    .ok ⟨strChars "Oops", strChars "high", 87, ['r'], ['d'], ['a'], ['p'],
      [['f', '1']], [⟨['i'], ['t'], ['#']⟩], [⟨['F'], ['N']⟩]⟩ := by decide

/-! ## Lemmas about stripping -/

theorem dropWhile_head_false {p : Char → Bool} :
    ∀ {l : List Char} {c : Char} {t : List Char}, l.dropWhile p = c :: t → p c = false := by
  intro l
  induction l with
  | nil => intro c t h; simp at h
  | cons a l ih =>
    intro c t h
    by_cases ha : p a
    · rw [List.dropWhile_cons_of_pos ha] at h
      exact ih h
    · rw [List.dropWhile_cons_of_neg ha] at h
      cases h
      simpa using ha

theorem dropWhile_all_nil {p : Char → Bool} :
    ∀ {w : List Char}, (∀ c ∈ w, p c = true) → w.dropWhile p = [] := by
  intro w
  induction w with
  | nil => intro _; rfl
  | cons a l ih =>
    intro h
    rw [List.dropWhile_cons, if_pos (h a (by simp))]
    exact ih fun c hc => h c (by simp [hc])

theorem pyStrip_eq_self {s : List Char}
    (h1 : ∀ c, s.head? = some c → pyIsSpace c = false)
    (h2 : ∀ c, s.getLast? = some c → pyIsSpace c = false) : pyStrip s = s := by
  unfold pyStrip
  cases s with
  | nil => rfl
  | cons a t =>
    rw [List.dropWhile_cons_of_neg (by simp [h1 a rfl])]
    cases hr : (a :: t).reverse with
    | nil => simp at hr
    | cons b r =>
      have hb : pyIsSpace b = false := by
        apply h2
        rw [← List.head?_reverse, hr]
        rfl
      rw [List.dropWhile_cons_of_neg (by simp [hb]), ← hr, List.reverse_reverse]

theorem pyStrip_append_ws {s w : List Char} (hw : ∀ c ∈ w, pyIsSpace c = true) :
    pyStrip (s ++ w) = pyStrip s := by
  unfold pyStrip
  rw [List.dropWhile_append]
  by_cases hs : (s.dropWhile pyIsSpace).isEmpty
  · rw [if_pos hs, dropWhile_all_nil hw]
    rw [List.isEmpty_iff] at hs
    rw [hs]
  · rw [if_neg hs, List.reverse_append,
      List.dropWhile_append_of_pos (by intro a ha; exact hw a (by simpa using ha))]

theorem getLast?_dropWhile {p : Char → Bool} :
    ∀ {l : List Char}, l.dropWhile p ≠ [] → (l.dropWhile p).getLast? = l.getLast? := by
  intro l
  induction l with
  | nil => intro h; simp at h
  | cons a t ih =>
    intro h
    by_cases ha : p a
    · rw [List.dropWhile_cons_of_pos ha] at h ⊢
      have ht : t ≠ [] := by
        intro he
        rw [he] at h
        simp at h
      rw [ih h]
      cases hts : t with
      | nil => exact absurd hts ht
      | cons b u => simp
    · rw [List.dropWhile_cons_of_neg ha]

theorem pyStrip_idem (s : List Char) : pyStrip (pyStrip s) = pyStrip s := by
  apply pyStrip_eq_self
  · intro c hc
    unfold pyStrip at hc
    rw [List.head?_reverse] at hc
    have hne : (s.dropWhile pyIsSpace).reverse.dropWhile pyIsSpace ≠ [] := by
      intro he
      rw [he] at hc
      simp at hc
    rw [getLast?_dropWhile hne, List.getLast?_reverse] at hc
    cases hd : s.dropWhile pyIsSpace with
    | nil => rw [hd] at hc; simp at hc
    | cons a t =>
      rw [hd] at hc
      simp only [List.head?_cons, Option.some.injEq] at hc
      subst hc
      exact dropWhile_head_false hd
  · intro c hc
    unfold pyStrip at hc
    rw [List.getLast?_reverse] at hc
    cases hd : (s.dropWhile pyIsSpace).reverse.dropWhile pyIsSpace with
    | nil => rw [hd] at hc; simp at hc
    | cons a t =>
      rw [hd] at hc
      simp only [List.head?_cons, Option.some.injEq] at hc
      subst hc
      exact dropWhile_head_false hd

/-! ## Lemmas about the fence-stripping step -/

theorem splitOnceFirst_not_mem {c : Char} :
    ∀ {s : List Char}, c ∉ s → splitOnceFirst [c] s = none := by
  intro s
  induction s with
  | nil => intro _; rfl
  | cons a t ih =>
    intro h
    have hac : ¬([c].isPrefixOf (a :: t) = true) := by
      simp only [List.isPrefixOf_iff_prefix]
      intro hpre
      rcases hpre with ⟨u, hu⟩
      apply h
      rw [← hu]
      simp
    rw [splitOnceFirst, if_neg hac, ih (by intro hm; exact h (by simp [hm]))]

theorem splitOnceFirst_first {c : Char} :
    ∀ {pre post : List Char}, c ∉ pre →
      splitOnceFirst [c] (pre ++ c :: post) = some (pre, post) := by
  intro pre
  induction pre with
  | nil =>
    intro post _
    rw [List.nil_append, splitOnceFirst, if_pos (by simp)]
    rfl
  | cons a t ih =>
    intro post h
    have hac : ¬([c].isPrefixOf (a :: (t ++ c :: post)) = true) := by
      simp only [List.isPrefixOf_iff_prefix]
      intro hpre
      rcases hpre with ⟨u, hu⟩
      apply h
      simp only [List.cons_append] at hu
      cases hu
      simp
    rw [List.cons_append, splitOnceFirst, if_neg hac,
      ih (by intro hm; exact h (by simp [hm]))]

theorem splitOnceLast_tail :
    ∀ X : List Char, splitOnceLast fence (X ++ '\n' :: fence) = some (X ++ ['\n'], []) := by
  intro X
  induction X with
  | nil => decide
  | cons a t ih =>
    rw [List.cons_append, splitOnceLast, ih]
    rfl

theorem cleanFences_no_fence {raw : List Char} (hpre : ¬ fence <+: raw)
    (hsuf : ¬ fence <:+ raw) : cleanFences raw = .ok (pyStrip raw) := by
  rw [cleanFences, if_neg (by simpa using hpre)]
  simp only
  rw [if_neg (by simpa using hsuf)]

theorem cleanFences_crash {raw : List Char} (hpre : fence <+: raw) (hnl : '\n' ∉ raw) :
    cleanFences raw = .error .indexError := by
  rw [cleanFences, if_pos (by simpa using hpre), show strChars "\n" = ['\n'] from rfl,
    splitOnceFirst_not_mem hnl]

theorem cleanFences_wrapped {tag inner : List Char} (htag : '\n' ∉ tag) :
    cleanFences (fence ++ tag ++ '\n' :: inner ++ '\n' :: fence) =
      .ok (pyStrip inner) := by
  have hsplit :
      splitOnceFirst ['\n'] ((fence ++ tag) ++ '\n' :: (inner ++ '\n' :: fence)) =
        some (fence ++ tag, inner ++ '\n' :: fence) := by
    apply splitOnceFirst_first
    intro hm
    rcases List.mem_append.mp hm with h | h
    · revert h; decide
    · exact htag h
  rw [cleanFences, if_pos (by simp [List.append_assoc])]
  rw [show strChars "\n" = ['\n'] from rfl]
  rw [show fence ++ tag ++ '\n' :: inner ++ '\n' :: fence =
        (fence ++ tag) ++ '\n' :: (inner ++ '\n' :: fence) by simp]
  rw [hsplit]
  simp only
  rw [if_pos (by simp only [List.isSuffixOf_iff_suffix]; exact ⟨inner ++ ['\n'], by simp⟩)]
  rw [splitOnceLast_tail]
  rw [pyStrip_append_ws (by intro c hc; simp at hc; rw [hc]; rfl)]

/-! ## Lemmas about digits -/

theorem digitChar_isDigit {d : Nat} (h : d < 10) : (digitChar d).isDigit = true := by
  interval_cases d <;> decide

theorem digitChar_toNat {d : Nat} (h : d < 10) : (digitChar d).toNat = 48 + d := by
  interval_cases d <;> decide

theorem digitChar_starter {d : Nat} (h : d < 10) :
    jsonWs (digitChar d) = false ∧ digitChar d ≠ ']' ∧ digitChar d ≠ '}' := by
  interval_cases d <;> exact ⟨by decide, by decide, by decide⟩

theorem natDigitsGo_append :
    ∀ (fuel n : Nat) (acc t : List Char),
      natDigitsGo fuel n acc ++ t = natDigitsGo fuel n (acc ++ t) := by
  intro fuel
  induction fuel with
  | zero => intro n acc t; simp [natDigitsGo]
  | succ fuel ih =>
    intro n acc t
    by_cases h : n < 10
    · simp [natDigitsGo, if_pos h]
    · simp only [natDigitsGo, if_neg h]
      rw [ih]
      rfl

theorem natDigitsGo_head :
    ∀ (fuel n : Nat), n ≤ fuel → ∀ acc : List Char,
      ∃ d t, natDigitsGo fuel n acc = digitChar d :: t ∧ d < 10 := by
  intro fuel
  induction fuel with
  | zero =>
    intro n hn acc
    exact ⟨n, acc, rfl, by omega⟩
  | succ fuel ih =>
    intro n hn acc
    by_cases h : n < 10
    · exact ⟨n, acc, by simp [natDigitsGo, if_pos h], h⟩
    · obtain ⟨d, t, hd, hdlt⟩ := ih (n / 10) (by omega) (digitChar (n % 10) :: acc)
      exact ⟨d, t, by simp only [natDigitsGo, if_neg h]; exact hd, hdlt⟩

theorem parseDigits_stop {rest : List Char} (h : headDigitFree rest) (a : Nat) :
    parseDigits rest a = (a, rest) := by
  cases rest with
  | nil => rfl
  | cons c t =>
    unfold headDigitFree at h
    rw [parseDigits, if_neg (by simp [h])]

theorem parseDigits_go :
    ∀ (fuel n : Nat), n ≤ fuel → ∀ (acc : List Char) (a : Nat),
      parseDigits (natDigitsGo fuel n acc) a =
        parseDigits acc (a * 10 ^ digitCount n + n) := by
  intro fuel
  induction fuel with
  | zero =>
    intro n hn acc a
    have h0 : n = 0 := by omega
    subst h0
    rw [natDigitsGo, parseDigits, if_pos (by simp [digitChar_isDigit (by omega : (0:Nat) < 10)]),
      digitChar_toNat (by omega : (0:Nat) < 10), digitCount, if_pos (by omega)]
    norm_num
  | succ fuel ih =>
    intro n hn acc a
    by_cases h : n < 10
    · rw [natDigitsGo, if_pos h, parseDigits, if_pos (by simp [digitChar_isDigit h]),
        digitChar_toNat h, digitCount, if_pos h]
      congr 1
      omega
    · have hdc : digitCount n = digitCount (n / 10) + 1 := by
        rw [digitCount]
        rw [if_neg h]
      rw [natDigitsGo, if_neg h, ih (n / 10) (by omega), parseDigits,
        if_pos (by simp [digitChar_isDigit (by omega : n % 10 < 10)]),
        digitChar_toNat (by omega : n % 10 < 10), hdc, pow_succ, ← mul_assoc]
      congr 1
      generalize a * 10 ^ digitCount (n / 10) = b
      omega

theorem parseDigits_natDigits {n : Nat} {rest : List Char} (h : headDigitFree rest) :
    parseDigits (natDigits n ++ rest) 0 = (n, rest) := by
  unfold natDigits
  rw [natDigitsGo_append, List.nil_append, parseDigits_go n n le_rfl rest 0,
    parseDigits_stop h]
  norm_num

/-! ## Lemmas about string literals -/

theorem charOfNat_toNat (c : Char) : Char.ofNat c.toNat = c := by
  have h : c.toNat.isValidChar := c.valid
  apply Char.eq_of_val_eq
  simp only [Char.ofNat, dif_pos h, Char.ofNatAux]
  apply UInt32.eq_of_toBitVec_eq
  apply BitVec.eq_of_toNat_eq
  simp [Char.toNat, BitVec.ofNatLt, UInt32.toNat]

theorem hexVal_hexDigitChar {d : Nat} (h : d < 16) : hexVal (hexDigitChar d) = some d := by
  interval_cases d <;> decide

theorem parseStringBody_cons_esc {e ch : Char} (he : e ≠ 'u') (hd : escDecode e = some ch)
    (r : List Char) : parseStringBody ('\\' :: e :: r) = consStr ch (parseStringBody r) := by
  rw [parseStringBody.eq_def]
  simp only [reduceIte, if_neg he, hd]
  rw [if_neg (by decide : ¬('\\' : Char) = '"')]

theorem parseStringBody_cons_raw {c : Char} (h1 : c ≠ '"') (h2 : c ≠ '\\')
    (h3 : ¬ c.toNat < 32) (r : List Char) :
    parseStringBody (c :: r) = consStr c (parseStringBody r) := by
  rw [parseStringBody.eq_def]
  simp only [if_neg h1, if_neg h2, if_neg h3]

theorem parseStringBody_cons_hex {x₁ x₂ x₃ x₄ : Char} {a b cc d : Nat}
    (ha : hexVal x₁ = some a) (hb : hexVal x₂ = some b) (hc : hexVal x₃ = some cc)
    (hd : hexVal x₄ = some d) (r : List Char) :
    parseStringBody ('\\' :: 'u' :: x₁ :: x₂ :: x₃ :: x₄ :: r) =
      consStr (Char.ofNat (((a * 16 + b) * 16 + cc) * 16 + d)) (parseStringBody r) := by
  rw [parseStringBody.eq_def]
  simp only [reduceIte, ha, hb, hc, hd]
  rw [if_neg (by decide : ¬('\\' : Char) = '"')]

theorem parseStringBody_escape :
    ∀ (s rest : List Char), parseStringBody (escapeList s ++ '"' :: rest) = .ok (s, rest) := by
  intro s
  induction s with
  | nil => intro rest; simp [escapeList, parseStringBody.eq_def]
  | cons c s ih =>
    intro rest
    by_cases h1 : c = '"'
    · subst h1
      simp only [escapeList, escapeChar, reduceIte, List.cons_append, List.append_assoc,
        List.nil_append]
      rw [@parseStringBody_cons_esc '"' '"' (by decide) rfl _, ih rest]
      rfl
    · by_cases h2 : c = '\\'
      · subst h2
        simp only [escapeList, escapeChar, if_neg h1, if_pos rfl, if_true, List.cons_append,
          List.append_assoc, List.nil_append]
        rw [@parseStringBody_cons_esc '\\' '\\' (by decide) rfl _, ih rest]
        rfl
      · by_cases h3 : c.toNat < 32
        · simp only [escapeList, escapeChar, if_neg h1, if_neg h2, if_pos h3, hex4,
            List.cons_append, List.append_assoc, List.nil_append]
          rw [parseStringBody_cons_hex (hexVal_hexDigitChar (by omega : c.toNat / 4096 % 16 < 16))
            (hexVal_hexDigitChar (by omega : c.toNat / 256 % 16 < 16))
            (hexVal_hexDigitChar (by omega : c.toNat / 16 % 16 < 16))
            (hexVal_hexDigitChar (by omega : c.toNat % 16 < 16)),
            show ((c.toNat / 4096 % 16 * 16 + c.toNat / 256 % 16) * 16 + c.toNat / 16 % 16) *
                16 + c.toNat % 16 = c.toNat by omega,
            charOfNat_toNat, ih rest]
          rfl
        · simp only [escapeList, escapeChar, if_neg h1, if_neg h2, if_neg h3,
            List.cons_append, List.nil_append]
          rw [parseStringBody_cons_raw h1 h2 h3, ih rest]
          rfl

/-! ## Lemmas about whitespace and leading characters of rendered text -/

theorem skipWs_noop {c : Char} {t : List Char} (h : jsonWs c = false) :
    skipWs (c :: t) = c :: t := by
  unfold skipWs
  rw [List.dropWhile_cons_of_neg]
  simp [h]

theorem renderElems_cons_head (x : Json) (xs : List Json) :
    ∃ t, renderElems (x :: xs) = render x ++ t := by
  cases xs with
  | nil => exact ⟨[], by simp [renderElems]⟩
  | cons y ys => exact ⟨',' :: renderElems (y :: ys), rfl⟩

theorem renderMembers_cons_head (k : List Char) (v : Json) (ms : List (List Char × Json)) :
    ∃ t, renderMembers ((k, v) :: ms) = renderString k ++ t := by
  cases ms with
  | nil => exact ⟨':' :: render v, by simp [renderMembers]⟩
  | cons m rest =>
    exact ⟨':' :: render v ++ ',' :: renderMembers (m :: rest), by simp [renderMembers]⟩

theorem render_head (j : Json) :
    ∃ c t, render j = c :: t ∧ (jsonWs c = false ∧ c ≠ ']' ∧ c ≠ '}') := by
  cases j with
  | int n =>
    by_cases h : n < 0
    · refine ⟨'-', natDigits n.natAbs, by simp [render, renderInt, if_pos h], by decide⟩
    · obtain ⟨d, t, hd, hdlt⟩ := natDigitsGo_head n.toNat n.toNat le_rfl []
      refine ⟨digitChar d, t, ?_, digitChar_starter hdlt⟩
      simp [render, renderInt, if_neg h, natDigits, hd]
  | bool b => cases b with
    | false => exact ⟨'f', _, rfl, by decide⟩
    | true => exact ⟨'t', _, rfl, by decide⟩
  | null => exact ⟨'n', _, rfl, by decide⟩
  | str s => exact ⟨'"', _, rfl, by decide⟩
  | arr l => refine ⟨'[', renderElems l ++ [']'], by simp [render], by decide⟩
  | obj ms => refine ⟨'{', renderMembers ms ++ ['}'], by simp [render], by decide⟩

/-! ## Completeness of the reader on rendered documents -/

mutual

theorem parseValue_render :
    ∀ (j : Json) (fuel : Nat) (rest : List Char), cost j < fuel → headDigitFree rest →
      parseValue fuel (render j ++ rest) = .ok (j, rest)
  | .null => by
    intro fuel rest hc hr
    cases fuel with
    | zero => simp [cost] at hc
    | succ f =>
      show parseValue (f + 1) (['n', 'u', 'l', 'l'] ++ rest) = .ok (.null, rest)
      simp [parseValue, skipWs, List.dropWhile_cons, jsonWs]
  | .bool true => by
    intro fuel rest hc hr
    cases fuel with
    | zero => simp [cost] at hc
    | succ f =>
      show parseValue (f + 1) (['t', 'r', 'u', 'e'] ++ rest) = .ok (.bool true, rest)
      simp [parseValue, skipWs, List.dropWhile_cons, jsonWs]
  | .bool false => by
    intro fuel rest hc hr
    cases fuel with
    | zero => simp [cost] at hc
    | succ f =>
      show parseValue (f + 1) (['f', 'a', 'l', 's', 'e'] ++ rest) = .ok (.bool false, rest)
      simp [parseValue, skipWs, List.dropWhile_cons, jsonWs]
  | .int n => by
    intro fuel rest hc hr
    cases fuel with
    | zero => simp [cost] at hc
    | succ f =>
      by_cases hn : n < 0
      · obtain ⟨d, t, hd, hdlt⟩ := natDigitsGo_head n.natAbs n.natAbs le_rfl []
        obtain ⟨hws, -, -⟩ := digitChar_starter hdlt
        have hfold : natDigits n.natAbs ++ rest = digitChar d :: (t ++ rest) := by
          simp [natDigits, hd]
        rw [show render (.int n) ++ rest = '-' :: (natDigits n.natAbs ++ rest) by
          simp [render, renderInt, if_pos hn], hfold]
        rw [parseValue, skipWs_noop (by decide)]
        simp only [reduceIte, digitChar_isDigit hdlt, if_true,
          (by decide : ('-').isDigit = false), Bool.false_eq_true]
        rw [← hfold, parseDigits_natDigits hr]
        simp only [Except.ok.injEq, Prod.mk.injEq, Json.int.injEq]
        exact ⟨by omega, trivial⟩
      · obtain ⟨d, t, hd, hdlt⟩ := natDigitsGo_head n.toNat n.toNat le_rfl []
        obtain ⟨hws, -, -⟩ := digitChar_starter hdlt
        have hfold : natDigits n.toNat ++ rest = digitChar d :: (t ++ rest) := by
          simp [natDigits, hd]
        rw [show render (.int n) ++ rest = natDigits n.toNat ++ rest by
          simp [render, renderInt, if_neg hn], hfold]
        rw [parseValue, skipWs_noop hws]
        simp only [reduceIte, digitChar_isDigit hdlt, if_true]
        rw [← hfold, parseDigits_natDigits hr]
        simp only [Except.ok.injEq, Prod.mk.injEq, Json.int.injEq]
        exact ⟨by omega, trivial⟩
  | .str s => by
    intro fuel rest hc hr
    cases fuel with
    | zero => simp [cost] at hc
    | succ f =>
      rw [show render (.str s) ++ rest = '"' :: (escapeList s ++ '"' :: rest) by
        simp [render, renderString]]
      simp [parseValue, skipWs, List.dropWhile_cons, jsonWs, parseStringBody_escape s rest]
  | .arr l => by
    intro fuel rest hc hr
    cases fuel with
    | zero => simp [cost] at hc
    | succ f =>
      cases l with
      | nil =>
        show parseValue (f + 1) (('[' :: ([] ++ [']'])) ++ rest) = .ok (.arr [], rest)
        simp [parseValue, skipWs, List.dropWhile_cons, jsonWs]
      | cons x xs =>
        have hce : costElems (x :: xs) < f := by
          simp [cost] at hc
          omega
        have hrec := parseElems_render (x :: xs) (by simp) f rest hce
        obtain ⟨c₀, t₀, h₀, hws₀, hne₀, -⟩ := render_head x
        obtain ⟨tr, hre⟩ := renderElems_cons_head x xs
        have hscrut : skipWs (renderElems (x :: xs) ++ ']' :: rest) =
            c₀ :: (t₀ ++ (tr ++ ']' :: rest)) := by
          rw [hre, h₀]
          simp only [List.cons_append, List.append_assoc]
          exact skipWs_noop hws₀
        rw [show render (.arr (x :: xs)) ++ rest =
          '[' :: (renderElems (x :: xs) ++ ']' :: rest) by simp [render]]
        rw [parseValue]
        rw [skipWs_noop (by decide)]
        simp only [show ('[').isDigit = false by decide, Bool.false_eq_true, if_false,
          show (('[' : Char) = '-') = False by simp, show (('[' : Char) = '"') = False by simp,
          show (('[' : Char) = '[') = True by simp, if_true]
        rw [hscrut]
        split
        · rename_i heq
          cases heq
          exact absurd rfl hne₀
        · rw [hrec]
  | .obj ms => by
    intro fuel rest hc hr
    cases fuel with
    | zero => simp [cost] at hc
    | succ f =>
      cases ms with
      | nil =>
        show parseValue (f + 1) (('{' :: ([] ++ ['}'])) ++ rest) = .ok (.obj [], rest)
        simp [parseValue, skipWs, List.dropWhile_cons, jsonWs]
      | cons m ms' =>
        have hcm : costMembers (m :: ms') < f := by
          simp [cost] at hc
          omega
        have hrec := parseMembers_render (m :: ms') (by simp) f rest hcm
        obtain ⟨k, v⟩ := m
        obtain ⟨tm, hrm⟩ := renderMembers_cons_head k v ms'
        have hscrut : skipWs (renderMembers ((k, v) :: ms') ++ '}' :: rest) =
            '"' :: (escapeList k ++ ('"' :: tm ++ '}' :: rest)) := by
          rw [hrm]
          simp only [renderString, List.cons_append, List.append_assoc]
          exact skipWs_noop (by decide)
        rw [show render (.obj ((k, v) :: ms')) ++ rest =
          '{' :: (renderMembers ((k, v) :: ms') ++ '}' :: rest) by simp [render]]
        rw [parseValue]
        rw [skipWs_noop (by decide)]
        simp only [show ('{').isDigit = false by decide, Bool.false_eq_true, if_false,
          show (('{' : Char) = '-') = False by simp, show (('{' : Char) = '"') = False by simp,
          show (('{' : Char) = '[') = False by simp, show (('{' : Char) = '{') = True by simp,
          if_true]
        rw [hscrut]
        split
        · rename_i heq
          cases heq
        · rw [hrec]

theorem parseElems_render :
    ∀ (l : List Json), l ≠ [] → ∀ (fuel : Nat) (rest : List Char), costElems l < fuel →
      parseElems fuel (renderElems l ++ ']' :: rest) = .ok (l, rest)
  | [] => by intro h; exact absurd rfl h
  | [x] => by
    intro hne fuel rest hc
    cases fuel with
    | zero => simp [costElems] at hc
    | succ f =>
      have hx : parseValue f (render x ++ ']' :: rest) = .ok (x, ']' :: rest) :=
        parseValue_render x f (']' :: rest) (by simp [costElems] at hc; omega) (by
          show (']').isDigit = false
          decide)
      rw [show renderElems [x] ++ ']' :: rest = render x ++ ']' :: rest by simp [renderElems]]
      rw [parseElems, hx]
      simp [skipWs, List.dropWhile_cons, jsonWs]
  | x :: y :: ys => by
    intro hne fuel rest hc
    cases fuel with
    | zero => simp [costElems] at hc
    | succ f =>
      have hx : parseValue f (render x ++ ',' :: (renderElems (y :: ys) ++ ']' :: rest)) =
          .ok (x, ',' :: (renderElems (y :: ys) ++ ']' :: rest)) :=
        parseValue_render x f _ (by simp [costElems] at hc; omega) (by
          show (',').isDigit = false
          decide)
      have hrec := parseElems_render (y :: ys) (by simp) f rest (by
        simp [costElems] at hc ⊢
        omega)
      rw [show renderElems (x :: y :: ys) ++ ']' :: rest =
        render x ++ ',' :: (renderElems (y :: ys) ++ ']' :: rest) by simp [renderElems]]
      rw [parseElems, hx]
      simp [skipWs, List.dropWhile_cons, jsonWs, hrec]

theorem parseMembers_render :
    ∀ (ms : List (List Char × Json)), ms ≠ [] → ∀ (fuel : Nat) (rest : List Char),
      costMembers ms < fuel →
      parseMembers fuel (renderMembers ms ++ '}' :: rest) = .ok (ms, rest)
  | [] => by intro h; exact absurd rfl h
  | [(k, v)] => by
    intro hne fuel rest hc
    cases fuel with
    | zero => simp [costMembers] at hc
    | succ f =>
      have hstr := parseStringBody_escape k (':' :: (render v ++ '}' :: rest))
      have hv : parseValue f (render v ++ '}' :: rest) = .ok (v, '}' :: rest) :=
        parseValue_render v f ('}' :: rest) (by simp [costMembers] at hc; omega) (by
          show ('}').isDigit = false
          decide)
      rw [show renderMembers [(k, v)] ++ '}' :: rest =
        '"' :: (escapeList k ++ '"' :: (':' :: (render v ++ '}' :: rest))) by
          simp [renderMembers, renderString]]
      rw [parseMembers]
      rw [skipWs_noop (by decide)]
      simp [hstr, hv, skipWs, List.dropWhile_cons, jsonWs]
  | (k, v) :: m :: ms' => by
    intro hne fuel rest hc
    cases fuel with
    | zero => simp [costMembers] at hc
    | succ f =>
      have hstr := parseStringBody_escape k
        (':' :: (render v ++ ',' :: (renderMembers (m :: ms') ++ '}' :: rest)))
      have hv : parseValue f
          (render v ++ ',' :: (renderMembers (m :: ms') ++ '}' :: rest)) =
          .ok (v, ',' :: (renderMembers (m :: ms') ++ '}' :: rest)) :=
        parseValue_render v f _ (by simp [costMembers] at hc; omega) (by
          show (',').isDigit = false
          decide)
      have hrec := parseMembers_render (m :: ms') (by simp) f rest (by
        simp [costMembers] at hc ⊢
        omega)
      rw [show renderMembers ((k, v) :: m :: ms') ++ '}' :: rest =
        '"' :: (escapeList k ++ '"' ::
          (':' :: (render v ++ ',' :: (renderMembers (m :: ms') ++ '}' :: rest)))) by
          simp [renderMembers, renderString]]
      rw [parseMembers]
      rw [skipWs_noop (by decide)]
      simp [hstr, hv, skipWs, List.dropWhile_cons, jsonWs, hrec]

end

mutual

theorem cost_le_length : ∀ j : Json, cost j ≤ (render j).length
  | .null => by simp [cost, render]
  | .bool true => by simp [cost, render]
  | .bool false => by simp [cost, render]
  | .int n => by
    by_cases h : n < 0
    · simp [cost, render, renderInt, if_pos h]
    · obtain ⟨d, t, hd, -⟩ := natDigitsGo_head n.toNat n.toNat le_rfl []
      simp [cost, render, renderInt, if_neg h, natDigits, hd]
  | .str s => by simp [cost, render, renderString]
  | .arr l => by
    have h := costElems_le_length l
    simp only [cost, render, List.length_cons, List.length_append]
    simp
    omega
  | .obj ms => by
    have h := costMembers_le_length ms
    simp only [cost, render, List.length_cons, List.length_append]
    simp
    omega

theorem costElems_le_length : ∀ l : List Json, costElems l ≤ 1 + (renderElems l).length
  | [] => by simp [costElems]
  | [x] => by
    have h := cost_le_length x
    simp [costElems, renderElems]
    omega
  | x :: y :: ys => by
    have h1 := cost_le_length x
    have h2 := costElems_le_length (y :: ys)
    have e1 : costElems (x :: y :: ys) = 1 + max (cost x) (costElems (y :: ys)) := by
      rw [costElems]
    have e2 : renderElems (x :: y :: ys) = render x ++ ',' :: renderElems (y :: ys) := by
      rw [renderElems]
    rw [e1, e2]
    simp only [List.length_append, List.length_cons]
    omega

theorem costMembers_le_length :
    ∀ ms : List (List Char × Json), costMembers ms ≤ 1 + (renderMembers ms).length
  | [] => by simp [costMembers]
  | [(k, v)] => by
    have h := cost_le_length v
    simp [costMembers, renderMembers]
    omega
  | (k, v) :: m :: ms' => by
    have h1 := cost_le_length v
    have h2 := costMembers_le_length (m :: ms')
    have e1 : costMembers ((k, v) :: m :: ms') = 1 + max (cost v) (costMembers (m :: ms')) := by
      rw [costMembers]
    have e2 : renderMembers ((k, v) :: m :: ms') =
        renderString k ++ ':' :: render v ++ ',' :: renderMembers (m :: ms') := by
      rw [renderMembers]
    rw [e1, e2]
    simp only [List.length_append, List.length_cons]
    omega

end

/-- The reader reconstructs every rendered document exactly: the model of
`json.loads` applied to the canonical serialization of `j` returns `j`. -/
theorem parseJson_render (j : Json) : parseJson (render j) = .ok j := by
  have h := parseValue_render j ((render j).length + 1) []
    (by have := cost_le_length j; omega) trivial
  rw [List.append_nil] at h
  rw [parseJson, h]
  simp [skipWs]

/-! ## Lemmas about the pydantic validation -/

theorem strElems_map (name : List Char) :
    ∀ l : List (List Char), strElems name (l.map Json.str) = .ok l := by
  intro l
  induction l with
  | nil => rfl
  | cons s rest ih => simp [List.map_cons, strElems, ih]

theorem issueOfJson_toJson (name : List Char) (i : RelatedIssue) :
    issueOfJson name (issueToJson i) = .ok i := rfl

theorem issueElems_map (name : List Char) :
    ∀ ri : List RelatedIssue, issueElems name (ri.map issueToJson) = .ok ri := by
  intro ri
  induction ri with
  | nil => rfl
  | cons i rest ih => simp [List.map_cons, issueElems, issueOfJson_toJson, ih]

theorem frameOfJson_toJson (name : List Char) (fr : TraceFrame) :
    frameOfJson name (frameToJson fr) = .ok fr := rfl

theorem frameElems_map (name : List Char) :
    ∀ tr : List TraceFrame, frameElems name (tr.map frameToJson) = .ok tr := by
  intro tr
  induction tr with
  | nil => rfl
  | cons fr rest ih => simp [List.map_cons, frameElems, frameOfJson_toJson, ih]

/-- Validation of the canonical full-shape document succeeds and returns
exactly the document's fields, whatever they are. -/
theorem validate_mkDoc (ct sv : List Char) (n : Int) (rc da asub pt : List Char)
    (sf : List (List Char)) (ri : List RelatedIssue) (tr : List TraceFrame) :
    validateReport (mkReportDoc ct sv (.int n) rc da asub pt sf ri tr) =
      .ok ⟨ct, sv, n, rc, da, asub, pt, sf, ri, tr⟩ := by
  show (match buildReport (docMembers ct sv (.int n) rc da asub pt sf ri tr) with
    | .ok r => Except.ok r
    | .error e => Except.error (PyError.validation e)) = _
  rw [buildReport]
  rw [show reqStr (docMembers ct sv (.int n) rc da asub pt sf ri tr) (strChars "crash_type") =
    .ok ct from rfl]
  simp only
  rw [show reqStr (docMembers ct sv (.int n) rc da asub pt sf ri tr) (strChars "severity") =
    .ok sv from rfl]
  simp only
  rw [show reqInt (docMembers ct sv (.int n) rc da asub pt sf ri tr) (strChars "confidence") =
    .ok n from rfl]
  simp only
  rw [show reqStr (docMembers ct sv (.int n) rc da asub pt sf ri tr) (strChars "root_cause") =
    .ok rc from rfl]
  simp only
  rw [show reqStr (docMembers ct sv (.int n) rc da asub pt sf ri tr)
    (strChars "detailed_analysis") = .ok da from rfl]
  simp only
  rw [show reqStr (docMembers ct sv (.int n) rc da asub pt sf ri tr)
    (strChars "affected_subsystem") = .ok asub from rfl]
  simp only
  rw [show reqStr (docMembers ct sv (.int n) rc da asub pt sf ri tr)
    (strChars "probable_trigger") = .ok pt from rfl]
  simp only
  rw [show reqStrList (docMembers ct sv (.int n) rc da asub pt sf ri tr)
    (strChars "suggested_fixes") = strElems (strChars "suggested_fixes") (sf.map .str) from rfl,
    strElems_map]
  simp only
  rw [show reqIssues (docMembers ct sv (.int n) rc da asub pt sf ri tr)
    (strChars "related_issues") = issueElems (strChars "related_issues") (ri.map issueToJson)
    from rfl, issueElems_map]
  simp only
  rw [show reqFrames (docMembers ct sv (.int n) rc da asub pt sf ri tr)
    (strChars "annotated_trace") = frameElems (strChars "annotated_trace") (tr.map frameToJson)
    from rfl, frameElems_map]

/-- With an uncoercible `confidence` value, validation fails naming the
`confidence` field; the value is neither clamped nor replaced. -/
theorem validate_mkDoc_badconf (ct sv : List Char) (v : Json) (rc da asub pt : List Char)
    (sf : List (List Char)) (ri : List RelatedIssue) (tr : List TraceFrame)
    (hv : pyIntLax v = none) :
    validateReport (mkReportDoc ct sv v rc da asub pt sf ri tr) =
      .error (.validation ⟨strChars "confidence", .notInt⟩) := by
  show (match buildReport (docMembers ct sv v rc da asub pt sf ri tr) with
    | .ok r => Except.ok r
    | .error e => Except.error (PyError.validation e)) = _
  rw [buildReport]
  rw [show reqStr (docMembers ct sv v rc da asub pt sf ri tr) (strChars "crash_type") =
    .ok ct from rfl]
  simp only
  rw [show reqStr (docMembers ct sv v rc da asub pt sf ri tr) (strChars "severity") =
    .ok sv from rfl]
  simp only
  rw [show reqInt (docMembers ct sv v rc da asub pt sf ri tr) (strChars "confidence") =
    (match pyIntLax v with
     | some m => .ok m
     | none => .error ⟨strChars "confidence", ErrKind.notInt⟩) from rfl, hv]

/-- With `confidence` absent altogether, validation fails with the
field-required error naming `confidence`; no default is invented. -/
theorem validate_noConf (ct sv rc da asub pt : List Char) (sf : List (List Char))
    (ri : List RelatedIssue) (tr : List TraceFrame) :
    validateReport (.obj (docMembersNoConf ct sv rc da asub pt sf ri tr)) =
      .error (.validation ⟨strChars "confidence", .missing⟩) := by
  show (match buildReport (docMembersNoConf ct sv rc da asub pt sf ri tr) with
    | .ok r => Except.ok r
    | .error e => Except.error (PyError.validation e)) = _
  rw [buildReport]
  rw [show reqStr (docMembersNoConf ct sv rc da asub pt sf ri tr) (strChars "crash_type") =
    .ok ct from rfl]
  simp only
  rw [show reqStr (docMembersNoConf ct sv rc da asub pt sf ri tr) (strChars "severity") =
    .ok sv from rfl]
  simp only
  rw [show reqInt (docMembersNoConf ct sv rc da asub pt sf ri tr) (strChars "confidence") =
    .error ⟨strChars "confidence", ErrKind.missing⟩ from rfl]

/-! ## Presence of required members behind a successful validation -/

theorem reqStr_ok_present {ms : List (List Char × Json)} {name v : List Char}
    (h : reqStr ms name = .ok v) : (getField ms name).isSome := by
  rw [reqStr] at h
  cases hg : getField ms name with
  | none => rw [hg] at h; simp at h
  | some j => simp

theorem reqInt_ok_present {ms : List (List Char × Json)} {name : List Char} {v : Int}
    (h : reqInt ms name = .ok v) : (getField ms name).isSome := by
  rw [reqInt] at h
  cases hg : getField ms name with
  | none => rw [hg] at h; simp at h
  | some j => simp

theorem reqStrList_ok_present {ms : List (List Char × Json)} {name : List Char}
    {v : List (List Char)} (h : reqStrList ms name = .ok v) : (getField ms name).isSome := by
  rw [reqStrList] at h
  cases hg : getField ms name with
  | none => rw [hg] at h; simp at h
  | some j => simp

theorem reqIssues_ok_present {ms : List (List Char × Json)} {name : List Char}
    {v : List RelatedIssue} (h : reqIssues ms name = .ok v) : (getField ms name).isSome := by
  rw [reqIssues] at h
  cases hg : getField ms name with
  | none => rw [hg] at h; simp at h
  | some j => simp

theorem reqFrames_ok_present {ms : List (List Char × Json)} {name : List Char}
    {v : List TraceFrame} (h : reqFrames ms name = .ok v) : (getField ms name).isSome := by
  rw [reqFrames] at h
  cases hg : getField ms name with
  | none => rw [hg] at h; simp at h
  | some j => simp

/-- A successful `AnalysisReport` construction needs every required member
present: nothing is silently defaulted. -/
theorem buildReport_ok_present {ms : List (List Char × Json)} {r : AnalysisReport}
    (h : buildReport ms = .ok r) :
    ∀ name ∈ requiredFields, (getField ms name).isSome := by
  rw [buildReport] at h
  cases h1 : reqStr ms (strChars "crash_type") with
  | error e => rw [h1] at h; simp at h
  | ok ct =>
  rw [h1] at h
  simp only at h
  cases h2 : reqStr ms (strChars "severity") with
  | error e => rw [h2] at h; simp at h
  | ok sv =>
  rw [h2] at h
  simp only at h
  cases h3 : reqInt ms (strChars "confidence") with
  | error e => rw [h3] at h; simp at h
  | ok conf =>
  rw [h3] at h
  simp only at h
  cases h4 : reqStr ms (strChars "root_cause") with
  | error e => rw [h4] at h; simp at h
  | ok rc =>
  rw [h4] at h
  simp only at h
  cases h5 : reqStr ms (strChars "detailed_analysis") with
  | error e => rw [h5] at h; simp at h
  | ok da =>
  rw [h5] at h
  simp only at h
  cases h6 : reqStr ms (strChars "affected_subsystem") with
  | error e => rw [h6] at h; simp at h
  | ok asub =>
  rw [h6] at h
  simp only at h
  cases h7 : reqStr ms (strChars "probable_trigger") with
  | error e => rw [h7] at h; simp at h
  | ok pt =>
  rw [h7] at h
  simp only at h
  cases h8 : reqStrList ms (strChars "suggested_fixes") with
  | error e => rw [h8] at h; simp at h
  | ok sf =>
  rw [h8] at h
  simp only at h
  cases h9 : reqIssues ms (strChars "related_issues") with
  | error e => rw [h9] at h; simp at h
  | ok ri =>
  rw [h9] at h
  simp only at h
  cases h10 : reqFrames ms (strChars "annotated_trace") with
  | error e => rw [h10] at h; simp at h
  | ok tr =>
  intro name hname
  simp only [requiredFields, List.mem_cons, List.not_mem_nil, or_false] at hname
  rcases hname with rfl | rfl | rfl | rfl | rfl | rfl | rfl | rfl | rfl | rfl
  · exact reqStr_ok_present h1
  · exact reqStr_ok_present h2
  · exact reqInt_ok_present h3
  · exact reqStr_ok_present h4
  · exact reqStr_ok_present h5
  · exact reqStr_ok_present h6
  · exact reqStr_ok_present h7
  · exact reqStrList_ok_present h8
  · exact reqIssues_ok_present h9
  · exact reqFrames_ok_present h10

/-! ## Unknown members are invisible to validation -/

theorem getField_none_of_not_mem {name : List Char} :
    ∀ {E : List (List Char × Json)}, (∀ p ∈ E, p.1 ≠ name) → getField E name = none := by
  intro E
  induction E with
  | nil => intro _; rfl
  | cons p rest ih =>
    intro h
    obtain ⟨k, v⟩ := p
    rw [getField, ih (fun q hq => h q (by simp [hq])),
      if_neg (h (k, v) (by simp))]

theorem getField_append {name : List Char} :
    ∀ (A B : List (List Char × Json)), getField (A ++ B) name =
      (match getField B name with
       | some v => some v
       | none => getField A name) := by
  intro A
  induction A with
  | nil =>
    intro B
    cases hb : getField B name <;> simp [hb, getField]
  | cons p rest ih =>
    intro B
    obtain ⟨k, v⟩ := p
    rw [List.cons_append, getField, ih B, getField]
    cases hb : getField B name with
    | some w => simp
    | none => simp

/-- Appending members whose names are not required leaves every required
lookup unchanged. -/
theorem getField_append_extras {ms E : List (List Char × Json)} {name : List Char}
    (hE : ∀ p ∈ E, p.1 ≠ name) : getField (ms ++ E) name = getField ms name := by
  rw [getField_append, getField_none_of_not_mem hE]

theorem buildReport_extras {ms E : List (List Char × Json)}
    (hE : ∀ p ∈ E, p.1 ∉ requiredFields) : buildReport (ms ++ E) = buildReport ms := by
  have hget : ∀ name ∈ requiredFields, getField (ms ++ E) name = getField ms name := by
    intro name hname
    exact getField_append_extras fun p hp heq => hE p hp (heq ▸ hname)
  rw [buildReport, buildReport]
  rw [show reqStr (ms ++ E) (strChars "crash_type") = reqStr ms (strChars "crash_type") by
    rw [reqStr, reqStr, hget _ (by simp [requiredFields])]]
  rw [show reqStr (ms ++ E) (strChars "severity") = reqStr ms (strChars "severity") by
    rw [reqStr, reqStr, hget _ (by simp [requiredFields])]]
  rw [show reqInt (ms ++ E) (strChars "confidence") = reqInt ms (strChars "confidence") by
    rw [reqInt, reqInt, hget _ (by simp [requiredFields])]]
  rw [show reqStr (ms ++ E) (strChars "root_cause") = reqStr ms (strChars "root_cause") by
    rw [reqStr, reqStr, hget _ (by simp [requiredFields])]]
  rw [show reqStr (ms ++ E) (strChars "detailed_analysis") =
      reqStr ms (strChars "detailed_analysis") by
    rw [reqStr, reqStr, hget _ (by simp [requiredFields])]]
  rw [show reqStr (ms ++ E) (strChars "affected_subsystem") =
      reqStr ms (strChars "affected_subsystem") by
    rw [reqStr, reqStr, hget _ (by simp [requiredFields])]]
  rw [show reqStr (ms ++ E) (strChars "probable_trigger") =
      reqStr ms (strChars "probable_trigger") by
    rw [reqStr, reqStr, hget _ (by simp [requiredFields])]]
  rw [show reqStrList (ms ++ E) (strChars "suggested_fixes") =
      reqStrList ms (strChars "suggested_fixes") by
    rw [reqStrList, reqStrList, hget _ (by simp [requiredFields])]]
  rw [show reqIssues (ms ++ E) (strChars "related_issues") =
      reqIssues ms (strChars "related_issues") by
    rw [reqIssues, reqIssues, hget _ (by simp [requiredFields])]]
  rw [show reqFrames (ms ++ E) (strChars "annotated_trace") =
      reqFrames ms (strChars "annotated_trace") by
    rw [reqFrames, reqFrames, hget _ (by simp [requiredFields])]]

/-! ## The rendered document passes the fence-stripping step untouched -/

theorem render_obj_shape (ms : List (List Char × Json)) :
    render (.obj ms) = '{' :: renderMembers ms ++ ['}'] := by
  rw [render]

theorem pyStrip_render_obj (ms : List (List Char × Json)) :
    pyStrip (render (.obj ms)) = render (.obj ms) := by
  rw [render_obj_shape]
  apply pyStrip_eq_self
  · intro c hc
    rw [show ('{' :: renderMembers ms ++ ['}']).head? = some '{' from rfl] at hc
    cases hc
    rfl
  · intro c hc
    rw [show ('{' :: renderMembers ms ++ ['}']) = ('{' :: renderMembers ms) ++ ['}'] by simp,
      List.getLast?_concat] at hc
    cases hc
    rfl

theorem fence_not_prefix_cons {c : Char} (h : c ≠ '`') (t : List Char) :
    ¬ fence <+: (c :: t) := by
  intro ⟨u, hu⟩
  rw [show fence = '`' :: ['`', '`'] from rfl, List.cons_append] at hu
  cases hu
  exact h rfl

theorem fence_not_suffix_concat {c : Char} (h : c ≠ '`') (t : List Char) :
    ¬ fence <:+ (t ++ [c]) := by
  intro ⟨u, hu⟩
  have hl := congrArg List.getLast? hu
  rw [List.getLast?_concat, show u ++ fence = (u ++ ['`', '`']) ++ ['`'] by simp [fence, strChars],
    List.getLast?_concat] at hl
  cases hl
  exact h rfl

theorem cleanFences_render_obj (ms : List (List Char × Json)) :
    cleanFences (render (.obj ms)) = .ok (render (.obj ms)) := by
  have h1 : ¬ fence <+: render (.obj ms) := by
    rw [render_obj_shape]
    exact fence_not_prefix_cons (by decide) _
  have h2 : ¬ fence <:+ render (.obj ms) := by
    rw [render_obj_shape, show ('{' :: renderMembers ms ++ ['}']) =
      ('{' :: renderMembers ms) ++ ['}'] by simp]
    exact fence_not_suffix_concat (by decide) _
  rw [cleanFences_no_fence h1 h2, pyStrip_render_obj]

theorem fenceWrap_eq (s : List Char) :
    fenceWrap s = fence ++ strChars "json" ++ '\n' :: s ++ '\n' :: fence := by
  simp [fenceWrap, fence, strChars]

theorem pyStrip_fenceWrap (s : List Char) : pyStrip (fenceWrap s) = fenceWrap s := by
  apply pyStrip_eq_self
  · intro c hc
    rw [show fenceWrap s = '`' :: (strChars "``json\n" ++ s ++ strChars "\n```") by
      simp [fenceWrap, strChars]] at hc
    rw [show ('`' :: (strChars "``json\n" ++ s ++ strChars "\n```")).head? = some '`'
      from rfl] at hc
    cases hc
    rfl
  · intro c hc
    rw [show fenceWrap s = (strChars "```json\n" ++ s ++ strChars "\n``") ++ ['`'] by
      simp [fenceWrap, strChars], List.getLast?_concat] at hc
    cases hc
    rfl

theorem cleanFences_fenceWrap (s : List Char) (hs : pyStrip s = s) :
    cleanFences (fenceWrap s) = .ok s := by
  rw [fenceWrap_eq, show fence ++ strChars "json" ++ '\n' :: s ++ '\n' :: fence =
    fence ++ strChars "json" ++ '\n' :: (s ++ '\n' :: fence) by simp]
  rw [show fence ++ strChars "json" ++ '\n' :: (s ++ '\n' :: fence) =
    fence ++ strChars "json" ++ '\n' :: s ++ '\n' :: fence by simp]
  rw [cleanFences_wrapped (by decide), hs]

/-! ## The stripped output of the fence step is itself stripped -/

theorem cleanFences_ok_stripped {t u : List Char} (h : cleanFences t = .ok u) :
    pyStrip u = u := by
  rw [cleanFences] at h
  by_cases hp : (fence.isPrefixOf t : Bool)
  · rw [if_pos hp] at h
    cases hsp : splitOnceFirst (strChars "\n") t with
    | none => rw [hsp] at h; simp at h
    | some pr =>
      rw [hsp] at h
      obtain ⟨pre, post⟩ := pr
      simp only at h
      cases h
      exact pyStrip_idem _
  · rw [if_neg hp] at h
    simp only at h
    cases h
    exact pyStrip_idem _

theorem cleanFences_fixed {u : List Char} (hs : pyStrip u = u) (h1 : ¬ fence <+: u)
    (h2 : ¬ fence <:+ u) : cleanFences u = .ok u := by
  rw [cleanFences_no_fence h1 h2, hs]

/-! ## Extraction of the keyword-level validation result -/

theorem buildReport_mkDoc (ct sv : List Char) (n : Int) (rc da asub pt : List Char)
    (sf : List (List Char)) (ri : List RelatedIssue) (tr : List TraceFrame) :
    buildReport (docMembers ct sv (.int n) rc da asub pt sf ri tr) =
      .ok ⟨ct, sv, n, rc, da, asub, pt, sf, ri, tr⟩ := by
  have hv := validate_mkDoc ct sv n rc da asub pt sf ri tr
  cases hb : buildReport (docMembers ct sv (.int n) rc da asub pt sf ri tr) with
  | ok r =>
    have hvr : validateReport (mkReportDoc ct sv (.int n) rc da asub pt sf ri tr) = .ok r := by
      show (match buildReport (docMembers ct sv (.int n) rc da asub pt sf ri tr) with
        | .ok r => Except.ok r
        | .error e => Except.error (PyError.validation e)) = .ok r
      rw [hb]
    rw [hv] at hvr
    cases hvr
    rfl
  | error e =>
    have hvr : validateReport (mkReportDoc ct sv (.int n) rc da asub pt sf ri tr) =
        .error (.validation e) := by
      show (match buildReport (docMembers ct sv (.int n) rc da asub pt sf ri tr) with
        | .ok r => Except.ok r
        | .error e => Except.error (PyError.validation e)) = .error (.validation e)
      rw [hb]
    rw [hv] at hvr
    simp at hvr

theorem joinParts_cons (sep a : List Char) (parts : List (List Char)) :
    ∃ t, joinParts sep (a :: parts) = a ++ t := by
  cases parts with
  | nil => exact ⟨[], by simp [joinParts]⟩
  | cons b rest => exact ⟨sep ++ joinParts sep (b :: rest), by simp [joinParts, List.append_assoc]⟩

/-! ## The claims -/

/-- C1 (amended): a reply document whose `confidence` value cannot be
coerced to an integer fails schema validation with an error naming the
`confidence` field, but the `[0, 100]` range is NOT enforced: every
integer value, in range or not, is accepted and passed through into the
report unchanged — neither clamped nor rejected. -/
theorem claim_c1_confidence_validation (ct sv : List Char) (n : Int)
    (rc da asub pt : List Char) (sf : List (List Char)) (ri : List RelatedIssue)
    (tr : List TraceFrame) :
    validateReport (mkReportDoc ct sv (.int n) rc da asub pt sf ri tr) =
      .ok ⟨ct, sv, n, rc, da, asub, pt, sf, ri, tr⟩ ∧
    (∀ v : Json, pyIntLax v = none →
      validateReport (mkReportDoc ct sv v rc da asub pt sf ri tr) =
        .error (.validation ⟨strChars "confidence", .notInt⟩)) :=
  ⟨validate_mkDoc ct sv n rc da asub pt sf ri tr,
   fun v hv => validate_mkDoc_badconf ct sv v rc da asub pt sf ri tr hv⟩

/-- C1 (counterexample to the claim as stated): a parsed reply document
whose `confidence` is `150` — outside `[0, 100]` — does NOT fail
schema validation: the report is constructed and carries `150`
untouched. -/
theorem claim_c1_counterexample :
    validateReport (mkReportDoc (strChars "Oops") (strChars "high") (.int 150)
        (strChars "r") (strChars "d") (strChars "a") (strChars "p") [] [] []) =
      .ok ⟨strChars "Oops", strChars "high", 150, strChars "r", strChars "d",
        strChars "a", strChars "p", [], [], []⟩ :=
  validate_mkDoc (strChars "Oops") (strChars "high") 150 (strChars "r") (strChars "d")
    (strChars "a") (strChars "p") [] [] []

/-- C1 witness: the amended claim at a concrete document — confidence
`150` is accepted unchanged, and the uncoercible string `"high"` fails
schema validation naming `confidence`. -/
theorem claim_c1_confidence_validation_witness :
    validateReport (mkReportDoc (strChars "Oops") (strChars "high") (.int 150)
        (strChars "r") (strChars "d") (strChars "a") (strChars "p") [] [] []) =
      .ok ⟨strChars "Oops", strChars "high", 150, strChars "r", strChars "d",
        strChars "a", strChars "p", [], [], []⟩ ∧
    validateReport (mkReportDoc (strChars "Oops") (strChars "high") (.str (strChars "high"))
        (strChars "r") (strChars "d") (strChars "a") (strChars "p") [] [] []) =
      .error (.validation ⟨strChars "confidence", .notInt⟩) :=
  ⟨(claim_c1_confidence_validation (strChars "Oops") (strChars "high") 150 (strChars "r")
      (strChars "d") (strChars "a") (strChars "p") [] [] []).1,
   (claim_c1_confidence_validation (strChars "Oops") (strChars "high") 150 (strChars "r")
      (strChars "d") (strChars "a") (strChars "p") [] [] []).2
      (.str (strChars "high")) (by decide)⟩

/-- C2: a request whose `log_text` is empty or whitespace-only is rejected
with HTTP 400 "log_text cannot be empty", and the result does not depend
on the completion service at all — the external collaborator is never
consulted. -/
theorem claim_c2_empty_log_rejected (req : AnalyzeRequest)
    (llm llm' : List Char → List Char → Except (List Char) (List Char))
    (h : pyStrip req.log_text = []) :
    analyze_crash llm req = .error ⟨400, strChars "log_text cannot be empty"⟩ ∧
    analyze_crash llm req = analyze_crash llm' req := by
  have key : ∀ l, analyze_crash l req = .error ⟨400, strChars "log_text cannot be empty"⟩ := by
    intro l
    rw [analyze_crash, if_pos h]
  exact ⟨key llm, (key llm).trans (key llm').symm⟩

/-- C2 witness: the whitespace-only request `"   "` is rejected with 400
regardless of what the completion service would have replied. -/
theorem claim_c2_empty_log_rejected_witness :
    analyze_crash (fun _ _ => .ok (strChars "reply")) { log_text := strChars "   " } =
      .error ⟨400, strChars "log_text cannot be empty"⟩ ∧
    analyze_crash (fun _ _ => .ok (strChars "reply")) { log_text := strChars "   " } =
      analyze_crash (fun _ _ => .error (strChars "provider down"))
        { log_text := strChars "   " } :=
  claim_c2_empty_log_rejected { log_text := strChars "   " } _ _ (by decide)

/-- C3: for every report document, feeding its canonical serialization as
the raw reply — bare, or wrapped in a single ```` ```json ```` fence pair —
makes the endpoint return a report whose fields equal the document's
fields exactly. -/
theorem claim_c3_roundtrip (r : AnalysisReport) (req : AnalyzeRequest)
    (h : pyStrip req.log_text ≠ []) :
    analyze_crash (fun _ _ => .ok (render (docOfReport r))) req = .ok r ∧
    analyze_crash (fun _ _ => .ok (fenceWrap (render (docOfReport r)))) req = .ok r := by
  have hobj : docOfReport r = Json.obj (docMembers r.crash_type r.severity (.int r.confidence)
      r.root_cause r.detailed_analysis r.affected_subsystem r.probable_trigger
      r.suggested_fixes r.related_issues r.annotated_trace) := rfl
  have hval : validateReport (docOfReport r) = .ok r :=
    validate_mkDoc r.crash_type r.severity r.confidence r.root_cause r.detailed_analysis
      r.affected_subsystem r.probable_trigger r.suggested_fixes r.related_issues
      r.annotated_trace
  constructor
  · rw [analyze_crash, if_neg h]
    simp only
    rw [hobj, pyStrip_render_obj, cleanFences_render_obj]
    simp only
    rw [parseJson_render]
    simp only
    rw [← hobj, hval]
  · rw [analyze_crash, if_neg h]
    simp only
    rw [hobj, pyStrip_fenceWrap, cleanFences_fenceWrap _ (pyStrip_render_obj _)]
    simp only
    rw [parseJson_render]
    simp only
    rw [← hobj, hval]

/-- C3 witness: Scenario A and Scenario B at a concrete report and
request. -/
theorem claim_c3_roundtrip_witness :
    analyze_crash
        (fun _ _ => .ok (render (docOfReport ⟨strChars "Oops", strChars "high", 87,
          strChars "r", strChars "d", strChars "a", strChars "p", [strChars "f1"],
          [⟨strChars "i", strChars "t", strChars "#"⟩], [⟨strChars "F", strChars "N"⟩]⟩)))
        { log_text := strChars "kernel BUG at mm/slab.c:123" } =
      .ok ⟨strChars "Oops", strChars "high", 87, strChars "r", strChars "d", strChars "a",
        strChars "p", [strChars "f1"], [⟨strChars "i", strChars "t", strChars "#"⟩],
        [⟨strChars "F", strChars "N"⟩]⟩ ∧
    analyze_crash
        (fun _ _ => .ok (fenceWrap (render (docOfReport ⟨strChars "Oops", strChars "high", 87,
          strChars "r", strChars "d", strChars "a", strChars "p", [strChars "f1"],
          [⟨strChars "i", strChars "t", strChars "#"⟩], [⟨strChars "F", strChars "N"⟩]⟩))))
        { log_text := strChars "kernel BUG at mm/slab.c:123" } =
      .ok ⟨strChars "Oops", strChars "high", 87, strChars "r", strChars "d", strChars "a",
        strChars "p", [strChars "f1"], [⟨strChars "i", strChars "t", strChars "#"⟩],
        [⟨strChars "F", strChars "N"⟩]⟩ :=
  claim_c3_roundtrip _ { log_text := strChars "kernel BUG at mm/slab.c:123" } (by decide)

/-- C4 (counterexample to idempotence as stated): on the doubly-wrapped
reply ```` ```json\n```a\nb\n```\n``` ````, the fence-stripping step
produces ```` ```a\nb\n``` ````, and applying the step to that output
strips again, producing `b` — the step changed its own output. -/
theorem claim_c4_counterexample :
    cleanFences (strChars "```json\n```a\nb\n```\n```") =
      .ok (strChars "```a\nb\n```") ∧
    cleanFences (strChars "```a\nb\n```") = .ok (strChars "b") ∧
    strChars "b" ≠ strChars "```a\nb\n```" := by
  refine ⟨by decide, by decide, by decide⟩

/-- C4 (amended): the fence-stripping step is conservative — a trimmed
reply containing no fence marker anywhere is returned unchanged, and a
reply wrapped in exactly one fence pair (first line carrying an optional
language tag) has exactly the wrapper removed with the trimmed inner
content preserved verbatim — and it is idempotent on every reply whose
output does not itself begin or end with a fence marker; a doubly-wrapped
reply, whose output does, is stripped again. -/
theorem claim_c4_fence_stripping :
    (∀ t : List Char, pyStrip t = t → ¬ fence <:+: t → cleanFences t = .ok t) ∧
    (∀ tag inner : List Char, '\n' ∉ tag → pyStrip inner = inner →
      cleanFences (fence ++ tag ++ '\n' :: inner ++ '\n' :: fence) = .ok inner) ∧
    (∀ t u : List Char, cleanFences t = .ok u → ¬ fence <+: u → ¬ fence <:+ u →
      cleanFences u = .ok u) := by
  refine ⟨?_, ?_, ?_⟩
  · intro t ht hinf
    rw [cleanFences_no_fence (fun hp => hinf hp.isInfix) (fun hs => hinf hs.isInfix), ht]
  · intro tag inner htag hinner
    rw [cleanFences_wrapped htag, hinner]
  · intro t u hok h1 h2
    exact cleanFences_fixed (cleanFences_ok_stripped hok) h1 h2

/-- C4 witness: the amended claim at concrete replies — a fence-free
reply is unchanged, a singly-wrapped reply is unwrapped exactly, and the
step is idempotent on the fence-free output of a stripping. -/
theorem claim_c4_fence_stripping_witness :
    cleanFences (strChars "plain reply") = .ok (strChars "plain reply") ∧
    cleanFences (fence ++ strChars "json" ++ '\n' :: strChars "inner text" ++ '\n' :: fence) =
      .ok (strChars "inner text") ∧
    cleanFences (strChars "stripped output") = .ok (strChars "stripped output") :=
  ⟨claim_c4_fence_stripping.1 (strChars "plain reply") (by decide) (by decide),
   claim_c4_fence_stripping.2.1 (strChars "json") (strChars "inner text") (by decide)
     (by decide),
   claim_c4_fence_stripping.2.2 (strChars "  stripped output\n") (strChars "stripped output")
     (by decide) (by decide) (by decide)⟩

/-- C5: whenever the fence-stripped reply text fails to parse as JSON,
the endpoint fails with the distinct malformed-upstream-reply
classification, HTTP 500 with detail "LLM returned invalid JSON: " plus
the parse error message — not with any other failure kind. -/
theorem claim_c5_malformed_reply (req : AnalyzeRequest) (reply t e : List Char)
    (hlog : pyStrip req.log_text ≠ [])
    (hclean : cleanFences (pyStrip reply) = .ok t)
    (hparse : parseJson t = .error e) :
    analyze_crash (fun _ _ => .ok reply) req =
      .error ⟨500, strChars "LLM returned invalid JSON: " ++ e⟩ := by
  rw [analyze_crash, if_neg hlog]
  simp only
  rw [hclean]
  simp only
  rw [hparse]

/-- C5 witness: Scenario C — the raw reply `"not json at all"` fails with
the malformed-reply classification carrying the parse error message. -/
theorem claim_c5_malformed_reply_witness :
    analyze_crash (fun _ _ => .ok (strChars "not json at all"))
        { log_text := strChars "kernel BUG" } =
      .error ⟨500, strChars "LLM returned invalid JSON: " ++ msgExpectingValue⟩ :=
  claim_c5_malformed_reply { log_text := strChars "kernel BUG" }
    (strChars "not json at all") (strChars "not json at all") msgExpectingValue
    (by decide) (by decide) (by decide)

/-- C6: a parsed document missing any required field never yields a
report — construction fails, nothing is defaulted — and on an otherwise
fully valid document missing `confidence`, validation fails with the
schema-violation error naming `confidence` as required. -/
theorem claim_c6_missing_field :
    (∀ (ms : List (List Char × Json)) (name : List Char), name ∈ requiredFields →
      getField ms name = none → ∀ r : AnalysisReport, validateReport (.obj ms) ≠ .ok r) ∧
    (∀ ct sv rc da asub pt sf ri tr,
      validateReport (.obj (docMembersNoConf ct sv rc da asub pt sf ri tr)) =
        .error (.validation ⟨strChars "confidence", .missing⟩)) := by
  constructor
  · intro ms name hmem hnone r hok
    have hshape : (match buildReport ms with
        | .ok r => Except.ok r
        | .error e => Except.error (PyError.validation e)) = Except.ok r := hok
    cases hb : buildReport ms with
    | error e => rw [hb] at hshape; simp at hshape
    | ok r' =>
      have := buildReport_ok_present hb name hmem
      rw [hnone] at this
      simp at this
  · intro ct sv rc da asub pt sf ri tr
    exact validate_noConf ct sv rc da asub pt sf ri tr

/-- C6 witness: the empty document (every required field missing) yields
no report, and the concrete document with everything but `confidence`
fails naming `confidence`. -/
theorem claim_c6_missing_field_witness :
    (validateReport (.obj []) ≠
      .ok ⟨strChars "Oops", strChars "high", 0, [], [], [], [], [], [], []⟩) ∧
    validateReport (.obj (docMembersNoConf (strChars "Oops") (strChars "high") (strChars "r")
        (strChars "d") (strChars "a") (strChars "p") [] [] [])) =
      .error (.validation ⟨strChars "confidence", .missing⟩) :=
  ⟨claim_c6_missing_field.1 [] (strChars "confidence") (by decide) (by decide) _,
   claim_c6_missing_field.2 (strChars "Oops") (strChars "high") (strChars "r") (strChars "d")
     (strChars "a") (strChars "p") [] [] []⟩

/-- C7: the rendered user message is a pure function of the request's four
fields (equal fields give byte-identical output); it embeds the full
`log_text` verbatim inside the `<kernel_log>` delimited block with no
truncation; when every optional field is the empty string the message
consists of exactly the log block and the closing instruction; and on
EVERY request the message is exactly the log block, then one line per
NON-empty optional field, then the closing instruction — an optional
field left empty contributes nothing at all, whatever the other fields
hold. -/
theorem claim_c7_prompt_pure_verbatim :
    (∀ r₁ r₂ : AnalyzeRequest, r₁.log_text = r₂.log_text →
      r₁.kernel_version = r₂.kernel_version → r₁.distro = r₂.distro →
      r₁.additional_context = r₂.additional_context →
      build_user_prompt r₁ = build_user_prompt r₂) ∧
    (∀ req : AnalyzeRequest, ∃ suffix, build_user_prompt req =
      strChars "<kernel_log>\n" ++ req.log_text ++ (strChars "\n</kernel_log>" ++ suffix)) ∧
    (∀ log : List Char, build_user_prompt { log_text := log } =
      strChars "<kernel_log>\n" ++ log ++ (strChars "\n</kernel_log>" ++ strChars "\n\n" ++
        strChars "\nAnalyze this crash and respond with the JSON report.")) ∧
    (∀ req : AnalyzeRequest, build_user_prompt req =
      strChars "<kernel_log>\n" ++ req.log_text ++ (strChars "\n</kernel_log>" ++
        ((if req.kernel_version = [] then []
          else strChars "\n\n" ++
            (strChars "Kernel version (user-provided): " ++ req.kernel_version)) ++
         ((if req.distro = [] then []
           else strChars "\n\n" ++ (strChars "Distribution: " ++ req.distro)) ++
          ((if req.additional_context = [] then []
            else strChars "\n\n" ++
              (strChars "Additional context from the engineer: " ++ req.additional_context)) ++
           (strChars "\n\n" ++
            strChars "\nAnalyze this crash and respond with the JSON report.")))))) := by
  refine ⟨?_, ?_, ?_, ?_⟩
  · intro r₁ r₂ h1 h2 h3 h4
    cases r₁
    cases r₂
    simp only at h1 h2 h3 h4
    subst h1
    subst h2
    subst h3
    subst h4
    rfl
  · intro req
    obtain ⟨t, ht⟩ := joinParts_cons (strChars "\n\n")
      (strChars "<kernel_log>\n" ++ req.log_text ++ strChars "\n</kernel_log>")
      ((if req.kernel_version ≠ [] then
          [strChars "Kernel version (user-provided): " ++ req.kernel_version] else []) ++
        (if req.distro ≠ [] then [strChars "Distribution: " ++ req.distro] else []) ++
        (if req.additional_context ≠ [] then
          [strChars "Additional context from the engineer: " ++ req.additional_context]
         else []) ++
        [strChars "\nAnalyze this crash and respond with the JSON report."])
    refine ⟨t, ?_⟩
    rw [show build_user_prompt req = joinParts (strChars "\n\n")
      ((strChars "<kernel_log>\n" ++ req.log_text ++ strChars "\n</kernel_log>") ::
       ((if req.kernel_version ≠ [] then
           [strChars "Kernel version (user-provided): " ++ req.kernel_version] else []) ++
         (if req.distro ≠ [] then [strChars "Distribution: " ++ req.distro] else []) ++
         (if req.additional_context ≠ [] then
           [strChars "Additional context from the engineer: " ++ req.additional_context]
          else []) ++
         [strChars "\nAnalyze this crash and respond with the JSON report."])) from rfl]
    rw [ht]
    simp [List.append_assoc]
  · intro log
    show joinParts (strChars "\n\n") _ = _
    simp [joinParts, List.append_assoc]
  · intro req
    by_cases hkv : req.kernel_version = [] <;> by_cases hdi : req.distro = [] <;>
      by_cases hac : req.additional_context = [] <;>
      simp [build_user_prompt, joinParts, hkv, hdi, hac, List.append_assoc]

/-- C7 witness: every part of the claim at concrete requests, including a
MIXED request whose `kernel_version` is empty while `distro` is not: the
message carries a Distribution line and no kernel-version line. -/
theorem claim_c7_prompt_pure_verbatim_witness :
    build_user_prompt { log_text := strChars "oops" } =
      build_user_prompt { log_text := strChars "oops" } ∧
    (∃ suffix, build_user_prompt { log_text := strChars "oops" } =
      strChars "<kernel_log>\n" ++ strChars "oops" ++ (strChars "\n</kernel_log>" ++ suffix)) ∧
    build_user_prompt { log_text := strChars "oops" } =
      strChars "<kernel_log>\n" ++ strChars "oops" ++ (strChars "\n</kernel_log>" ++
        strChars "\n\n" ++
        strChars "\nAnalyze this crash and respond with the JSON report.") ∧
    build_user_prompt { log_text := strChars "oops", distro := strChars "Ubuntu" } =
      strChars "<kernel_log>\noops\n</kernel_log>\n\nDistribution: Ubuntu\n\n\nAnalyze this crash and respond with the JSON report." :=
  ⟨claim_c7_prompt_pure_verbatim.1 { log_text := strChars "oops" }
      { log_text := strChars "oops" } rfl rfl rfl rfl,
   claim_c7_prompt_pure_verbatim.2.1 { log_text := strChars "oops" },
   claim_c7_prompt_pure_verbatim.2.2.1 (strChars "oops"),
   (claim_c7_prompt_pure_verbatim.2.2.2
      { log_text := strChars "oops", distro := strChars "Ubuntu" }).trans (by decide)⟩

/-- C8: the `crash_type` and `severity` members accept EVERY string value
— the advertised enumerations are not mechanically enforced — and the
value is passed through into the report unchanged. -/
theorem claim_c8_enums_not_enforced (ct sv : List Char) (n : Int)
    (rc da asub pt : List Char) (sf : List (List Char)) (ri : List RelatedIssue)
    (tr : List TraceFrame) :
    validateReport (mkReportDoc ct sv (.int n) rc da asub pt sf ri tr) =
      .ok ⟨ct, sv, n, rc, da, asub, pt, sf, ri, tr⟩ :=
  validate_mkDoc ct sv n rc da asub pt sf ri tr

/-- C9: a reply whose stripped text starts with a fence marker but
contains no newline makes the fence-stripping step itself raise
(`IndexError`), so the request fails under the generic "Analysis failed"
classification — not the malformed-reply one. -/
theorem claim_c9_fence_crash (req : AnalyzeRequest) (reply : List Char)
    (hlog : pyStrip req.log_text ≠ [])
    (hpre : fence <+: pyStrip reply) (hnl : '\n' ∉ pyStrip reply) :
    analyze_crash (fun _ _ => .ok reply) req =
      .error ⟨500, strChars "Analysis failed: " ++ strChars "list index out of range"⟩ ∧
    (∀ msg : List Char, analyze_crash (fun _ _ => .ok reply) req ≠
      .error ⟨500, strChars "LLM returned invalid JSON: " ++ msg⟩) := by
  have key : analyze_crash (fun _ _ => .ok reply) req =
      .error ⟨500, strChars "Analysis failed: " ++ strChars "list index out of range"⟩ := by
    rw [analyze_crash, if_neg hlog]
    simp only
    rw [cleanFences_crash hpre hnl]
    rfl
  refine ⟨key, ?_⟩
  intro msg hbad
  rw [key] at hbad
  have hdetail := congrArg (fun x : HttpError => x.detail) (Except.error.inj hbad)
  have hhead := congrArg List.head? hdetail
  rw [show (strChars "Analysis failed: " ++ strChars "list index out of range").head? =
    some 'A' from rfl] at hhead
  rw [show (strChars "LLM returned invalid JSON: " ++ msg).head? = some 'L' from rfl] at hhead
  cases hhead

/-- C9 witness: the reply consisting of exactly three backticks crashes
the stripping step and is classified as generic "Analysis failed". -/
theorem claim_c9_fence_crash_witness :
    analyze_crash (fun _ _ => .ok (strChars "```")) { log_text := strChars "kernel BUG" } =
      .error ⟨500, strChars "Analysis failed: " ++ strChars "list index out of range"⟩ ∧
    analyze_crash (fun _ _ => .ok (strChars "```")) { log_text := strChars "kernel BUG" } ≠
      .error ⟨500, strChars "LLM returned invalid JSON: " ++ msgExpectingValue⟩ :=
  ⟨(claim_c9_fence_crash { log_text := strChars "kernel BUG" } (strChars "```")
      (by decide) (by decide) (by decide)).1,
   (claim_c9_fence_crash { log_text := strChars "kernel BUG" } (strChars "```")
      (by decide) (by decide) (by decide)).2 msgExpectingValue⟩

/-- C10: a parsed document carrying all required fields plus arbitrary
unknown extra members still validates, and the resulting report equals the
one without the extras — unknown members are silently discarded, never a
validation failure. -/
theorem claim_c10_extra_fields_ignored (ct sv : List Char) (n : Int)
    (rc da asub pt : List Char) (sf : List (List Char)) (ri : List RelatedIssue)
    (tr : List TraceFrame) (E : List (List Char × Json))
    (hE : ∀ p ∈ E, p.1 ∉ requiredFields) :
    validateReport (.obj (docMembers ct sv (.int n) rc da asub pt sf ri tr ++ E)) =
      .ok ⟨ct, sv, n, rc, da, asub, pt, sf, ri, tr⟩ := by
  show (match buildReport (docMembers ct sv (.int n) rc da asub pt sf ri tr ++ E) with
    | .ok r => Except.ok r
    | .error e => Except.error (PyError.validation e)) = _
  rw [buildReport_extras hE, buildReport_mkDoc]

/-- C10 witness: a concrete document with two unknown extra members
validates to the same report as without them. -/
theorem claim_c10_extra_fields_ignored_witness :
    validateReport (.obj (docMembers (strChars "Oops") (strChars "high") (.int 87)
        (strChars "r") (strChars "d") (strChars "a") (strChars "p") [] [] [] ++
        [(strChars "banana", .int 1), (strChars "extra_notes", .str (strChars "hi"))])) =
      .ok ⟨strChars "Oops", strChars "high", 87, strChars "r", strChars "d", strChars "a",
        strChars "p", [], [], []⟩ :=
  claim_c10_extra_fields_ignored (strChars "Oops") (strChars "high") 87 (strChars "r")
    (strChars "d") (strChars "a") (strChars "p") [] [] []
    [(strChars "banana", .int 1), (strChars "extra_notes", .str (strChars "hi"))]
    (by decide)

end KernelCrashAnalyzer
